import Mathlib

/-!
Verification development for the pidog autonomous-brain repository.

The Python modules `personality.py`, `memory_manager.py`, `memory_maintenance.py`,
`tools.py`, `behavior_engine.py` and `autonomous_brain.py` are shallowly embedded
below: SQLite tables become Lean lists, Python floats become rationals (reals where
a square root is genuinely computed), dictionaries become structures or association
lists, and each Python method becomes a Lean function mirroring its control flow.
Theorems then settle the specification claims against these definitions.
-/

namespace Pidog

/-- Clamp a rational to the interval [0,1]; mirrors the repeated Python idiom
`max(0.0, min(1.0, value))`. -/
def clamp01 (x : ℚ) : ℚ := max 0 (min 1 x)

/-- `Mood` from `personality.py`: five transient emotional fields. -/
structure Mood where
  happiness : ℚ := 1/2
  excitement : ℚ := 3/10
  tiredness : ℚ := 0
  boredom : ℚ := 0
  curiosity_level : ℚ := 3/10
deriving Repr, DecidableEq

/-- `Mood.decay(dt)`: excitement and curiosity drift down to the 0.3 baseline,
boredom and tiredness creep up, from `personality.py`. -/
def Mood.decay (m : Mood) (dt : ℚ) : Mood :=
  let decayRate := (1/100) * dt
  { m with
    excitement := max (3/10) (m.excitement - decayRate),
    curiosity_level := max (3/10) (m.curiosity_level - decayRate),
    boredom := min 1 (m.boredom + decayRate * (1/2)),
    tiredness := min 1 (m.tiredness + decayRate * (1/10)) }

/-- `Mood.on_interaction()` from `personality.py`. -/
def Mood.onInteraction (m : Mood) : Mood :=
  { m with
    boredom := max 0 (m.boredom - 3/10),
    happiness := min 1 (m.happiness + 1/10),
    excitement := min 1 (m.excitement + 2/10) }

/-- `Mood.on_novel_stimulus(novelty)` from `personality.py`. -/
def Mood.onNovelStimulus (m : Mood) (novelty : ℚ) : Mood :=
  { m with
    curiosity_level := min 1 (m.curiosity_level + novelty * (3/10)),
    boredom := max 0 (m.boredom - novelty * (2/10)),
    excitement := min 1 (m.excitement + novelty * (1/10)) }

/-- The touch-induced happiness bump applied inline in
`AutonomousBrain._handle_observation` (`autonomous_brain.py`):
`self.mood.happiness = min(1.0, self.mood.happiness + 0.1)`. -/
def Mood.touchBump (m : Mood) : Mood :=
  { m with happiness := min 1 (m.happiness + 1/10) }

/-- The post-think mood update of the remote backend
(`AutonomousBrain._do_think`): curiosity is reset to 0.3 and boredom to 0. -/
def Mood.postThinkRemote (m : Mood) : Mood :=
  { m with curiosity_level := 3/10, boredom := 0 }

/-- The post-think mood update of the local backend
(`AutonomousBrain._do_think_local`): curiosity decremented by 0.2 with floor 0.3,
boredom decremented by 0.3 with floor 0. -/
def Mood.postThinkLocal (m : Mood) : Mood :=
  { m with
    curiosity_level := max (3/10) (m.curiosity_level - 2/10),
    boredom := max 0 (m.boredom - 3/10) }

/-- Every mood field lies in the interval [0,1]. -/
def Mood.inBounds (m : Mood) : Prop :=
  0 ≤ m.happiness ∧ m.happiness ≤ 1 ∧
  0 ≤ m.excitement ∧ m.excitement ≤ 1 ∧
  0 ≤ m.tiredness ∧ m.tiredness ≤ 1 ∧
  0 ≤ m.boredom ∧ m.boredom ≤ 1 ∧
  0 ≤ m.curiosity_level ∧ m.curiosity_level ≤ 1

instance (m : Mood) : Decidable m.inBounds := by
  unfold Mood.inBounds; infer_instance

/-- ASCII case folding; mirrors Python `str.lower()` on the action/name strings
used by the repository (all ASCII). -/
def strLower (s : String) : String := String.mk (s.data.map Char.toLower)

/-- A row of the `memories` table (`memory_manager.py`).  `created_at` is dropped
(it is never read by the code under verification); `last_accessed` is an abstract
timestamp. -/
structure Memory where
  id : Int
  category : String := "fact"
  subject : String := ""
  content : String := ""
  importance : ℚ := 1/2
  lastAccessed : Nat := 0
  accessCount : Nat := 0
deriving Repr, DecidableEq

/-- `MemoryManager.remember`: clamp importance and insert the new row; the store
is a list, `nextId` plays SQLite's `lastrowid`.  Note: no validation of
`category` is performed, mirroring the source. -/
def MemoryManager.remember (store : List Memory) (nextId : Int)
    (category subject content : String) (importance : ℚ) : List Memory × Int :=
  let importance := clamp01 importance
  (store ++ [{ id := nextId, category := category, subject := subject,
               content := content, importance := importance }], nextId)

/-- `MemoryManager.bulk_delete_memories`. -/
def MemoryManager.bulk_delete_memories (store : List Memory) (ids : List Int) :
    List Memory :=
  store.filter (fun m => m.id ∉ ids)

/-- `MemoryManager.update_memory_content`. -/
def MemoryManager.update_memory_content (store : List Memory) (memoryId : Int)
    (content : String) : List Memory :=
  store.map (fun m => if m.id = memoryId then { m with content := content } else m)

/-- `MemoryManager.update_memory_importance` (clamps). -/
def MemoryManager.update_memory_importance (store : List Memory) (memoryId : Int)
    (importance : ℚ) : List Memory :=
  store.map (fun m => if m.id = memoryId then { m with importance := clamp01 importance } else m)

/-- A row of the `tricks` table.  The SQLite rowid and the two timestamps are
dropped: the code under verification never reads them. -/
structure Trick where
  name : String := ""
  trigger_phrase : String := ""
  actions : List String := []
  times_performed : Nat := 0
deriving Repr, DecidableEq

/-- `MemoryManager.VALID_ACTIONS` from `memory_manager.py`, verbatim. -/
def MemoryManager.VALID_ACTIONS : List String :=
  ["forward", "backward", "lie", "stand", "sit", "bark", "bark harder",
   "pant", "howling", "wag tail", "stretch", "push up", "scratch",
   "handshake", "high five", "lick hand", "shake head", "relax neck",
   "nod", "think", "recall", "head down", "fluster", "surprise",
   "turn left", "turn right", "stop"]

/-- `MemoryManager.MAX_ACTIONS_PER_TRICK`. -/
def MemoryManager.MAX_ACTIONS_PER_TRICK : Nat := 10

/-- The closed action vocabulary exactly as enumerated in spec section 6
(for comparison against `MemoryManager.VALID_ACTIONS`). -/
def specActionVocabulary : List String :=
  ["forward", "backward", "turn left", "turn right", "stop", "lie", "stand",
   "sit", "bark", "bark harder", "pant", "wag tail", "shake head", "stretch",
   "doze off", "push up", "howling", "twist body", "scratch", "handshake",
   "high five", "lick hand", "waiting", "feet shake", "relax neck", "nod",
   "think", "recall", "fluster", "surprise"]

/-- Modelled from the spec: the `tricks` table schema (`schema.sql`) is not in
the source tree; the spec declares trick `name` "unique, case-folded", so
`INSERT OR REPLACE INTO tricks` replaces any existing row with the same name. -/
def insertOrReplaceTrick (tricks : List Trick) (t : Trick) : List Trick :=
  tricks.filter (fun u => u.name ≠ t.name) ++ [t]

/-- `MemoryManager.learn_trick`: length check, action validation against
`VALID_ACTIONS`, case folding, then `INSERT OR REPLACE`.  Returns the new
trick store together with the `(success, message)` pair. -/
def MemoryManager.learn_trick (tricks : List Trick) (name trigger_phrase : String)
    (actions : List String) : List Trick × Bool × String :=
  if actions.length > MemoryManager.MAX_ACTIONS_PER_TRICK then
    (tricks, false, "Too many actions (max 10)")
  else
    let invalid_actions := actions.filter
      (fun a => strLower a ∉ MemoryManager.VALID_ACTIONS.map strLower)
    if invalid_actions ≠ [] then
      (tricks, false, "Invalid actions: " ++ String.intercalate ", " invalid_actions)
    else
      let actions := actions.map strLower
      (insertOrReplaceTrick tricks
        { name := strLower name, trigger_phrase := strLower trigger_phrase,
          actions := actions },
       true, "Learned trick " ++ name)

/-- `MemoryManager.get_trick`: first row whose name equals the case-folded
query. -/
def MemoryManager.get_trick (tricks : List Trick) (name : String) : Option Trick :=
  tricks.find? (fun t => t.name = strLower name)

/-- Payload of a `ToolResult.data` field (`Any` in Python); only the shapes the
verified tools produce. -/
inductive ToolData where
  | none
  | intVal (i : Int)
  | strVal (s : String)
deriving Repr, DecidableEq

/-- `ToolResult` from `tools.py`. -/
structure ToolResult where
  success : Bool
  message : String
  data : ToolData := .none
deriving Repr, DecidableEq

/-- The parameter dictionary accepted by `ToolExecutor._tool_remember`
(each key optional, as with `params.get`). -/
structure RememberParams where
  category : Option String := none
  subject : Option String := none
  content : Option String := none
  importance : Option ℚ := none

/-- `valid_categories` from `ToolExecutor._tool_remember`. -/
def validCategories : List String :=
  ["person", "fact", "preference", "experience", "location"]

/-- `ToolExecutor._tool_remember`: missing subject/content refuse; an
out-of-set category is coerced to `"fact"`; then `MemoryManager.remember`
inserts. -/
def ToolExecutor.toolRemember (store : List Memory) (nextId : Int)
    (params : RememberParams) : List Memory × ToolResult :=
  let category := params.category.getD "fact"
  let subject := params.subject.getD ""
  let content := params.content.getD ""
  let importance := params.importance.getD (1/2)
  if subject = "" ∨ content = "" then
    (store, { success := false, message := "Missing subject or content" })
  else
    let category := if category ∈ validCategories then category else "fact"
    let r := MemoryManager.remember store nextId category subject content importance
    (r.1, { success := true, message := "Remembered: " ++ subject, data := .intVal r.2 })

/-- A row of the `rooms` table; only the fields read by the verified tools. -/
structure Room where
  name : String := ""
  description : String := ""
deriving Repr, DecidableEq

/-- `MemoryManager.get_room`: lookup by case-folded name. -/
def MemoryManager.get_room (rooms : List Room) (name : String) : Option Room :=
  rooms.find? (fun r => r.name = strLower name)

/-- Outcome of invoking a registered capability callback: a normal return
carrying its value, or a raised exception carrying its message. -/
inductive CallbackOutcome where
  | ok (data : ToolData)
  | exn (message : String)
deriving Repr, DecidableEq

/-- The `vision_callbacks` table of `ToolExecutor`: `none` means no callback of
that name is registered; `some o` gives the behaviour of the registered
callback at this call. -/
def VisionCallbacks := String → Option CallbackOutcome

/-- `ToolExecutor._tool_learn_face`. -/
def ToolExecutor.toolLearnFace (env : VisionCallbacks) (name : String) : ToolResult :=
  if name = "" then { success := false, message := "Missing name" }
  else match env "learn_face" with
    | some (.ok d) =>
        { success := true, message := "Learned " ++ name ++ "'s face", data := d }
    | some (.exn e) => { success := false, message := "Failed to learn face: " ++ e }
    | none => { success := false, message := "Vision not available" }

/-- `ToolExecutor._tool_learn_room`. -/
def ToolExecutor.toolLearnRoom (env : VisionCallbacks) (name : String) : ToolResult :=
  if name = "" then { success := false, message := "Missing room name" }
  else match env "learn_room" with
    | some (.ok d) =>
        { success := true, message := "Learned room: " ++ name, data := d }
    | some (.exn e) => { success := false, message := "Failed to learn room: " ++ e }
    | none => { success := false, message := "Vision not available" }

/-- `ToolExecutor._tool_follow_person`. -/
def ToolExecutor.toolFollowPerson (env : VisionCallbacks) : ToolResult :=
  match env "follow_person" with
  | some (.ok _) => { success := true, message := "Following person" }
  | some (.exn e) => { success := false, message := "Failed to follow: " ++ e }
  | none => { success := false, message := "Vision not available" }

/-- `ToolExecutor._tool_find_person`. -/
def ToolExecutor.toolFindPerson (env : VisionCallbacks) (name : String) : ToolResult :=
  if name = "" then { success := false, message := "Missing name" }
  else match env "find_person" with
    | some (.ok _) => { success := true, message := "Searching for " ++ name }
    | some (.exn e) => { success := false, message := "Failed to search: " ++ e }
    | none => { success := false, message := "Vision not available" }

/-- `ToolExecutor._tool_go_to_room`: checks the room exists before consulting
the callback table. -/
def ToolExecutor.toolGoToRoom (env : VisionCallbacks) (rooms : List Room)
    (name : String) : ToolResult :=
  if name = "" then { success := false, message := "Missing room name" }
  else match MemoryManager.get_room rooms name with
    | none => { success := false, message := "Unknown room: " ++ name }
    | some _ =>
      match env "go_to_room" with
      | some (.ok _) => { success := true, message := "Navigating to " ++ name }
      | some (.exn e) => { success := false, message := "Navigation failed: " ++ e }
      | none => { success := false, message := "Navigation not available" }

/-- `ToolExecutor._tool_explore`. -/
def ToolExecutor.toolExplore (env : VisionCallbacks) : ToolResult :=
  match env "explore" with
  | some (.ok _) => { success := true, message := "Exploring..." }
  | some (.exn e) => { success := false, message := "Exploration failed: " ++ e }
  | none => { success := false, message := "Navigation not available" }

/-- The brain state machine states (`autonomous_brain.py`). -/
inductive AutonomousState where
  | IDLE
  | CURIOUS
  | THINKING
  | ACTING
  | INTERACTING
deriving Repr, DecidableEq

/-- An observation value: a vision event dictionary (with its `event`
discriminator and optional `name` payload), a number, or a string. -/
inductive ObsValue where
  | visionEvent (event : String) (name : Option String)
  | number (x : ℚ)
  | text (s : String)
deriving Repr, DecidableEq

/-- Python truthiness of an observation value (`and obs.value`). -/
def ObsValue.truthy : ObsValue → Bool
  | .visionEvent _ _ => true
  | .number x => x ≠ 0
  | .text s => s ≠ ""

/-- A sensor observation (`autonomous_brain.py`). -/
structure Observation where
  sensor_type : String
  value : ObsValue
  novelty : ℚ := 0

/-- The mutable fields of `AutonomousBrain` read and written by
`_handle_observation`. -/
structure BrainState where
  state : AutonomousState := .IDLE
  mood : Mood := {}
  recent_person : Option String := none
  person_detected : Bool := false
  person_is_new : Bool := false
  last_person_time : ℚ := 0
  person_left_time : ℚ := 0
  obstacle_distance : ℚ := 100
  touch_detected : Bool := false
  touch_style : Option String := none

/-- `AutonomousBrain._handle_observation`: mood bump on high novelty, then the
per-sensor latched-state updates and the IDLE→CURIOUS transitions.  `now` is
the value of `time.time()`.  (A malformed vision value raises in Python and is
caught by the loop, leaving the state unchanged; here it is the identity.) -/
def AutonomousBrain.handleObservation (bs₀ : BrainState) (obs : Observation)
    (now : ℚ) : BrainState :=
  let bs := if obs.novelty > 1/2 then
      { bs₀ with mood := bs₀.mood.onNovelStimulus obs.novelty } else bs₀
  if obs.sensor_type = "vision" then
    match obs.value with
    | .visionEvent event name =>
      if event = "person_entered_view" then
        { bs with person_detected := true, recent_person := none,
                  person_is_new := true, last_person_time := now,
                  state := if bs.state = .IDLE then .CURIOUS else bs.state }
      else if event = "face_recognized" then
        let nm := name.getD ""
        { bs with person_detected := true, recent_person := some nm,
                  person_is_new := obs.novelty > 1/2, last_person_time := now,
                  state := if nm ≠ "" ∧ bs.state = .IDLE then .CURIOUS else bs.state }
      else if event = "unknown_face_detected" then
        { bs with person_detected := true, recent_person := none,
                  person_is_new := true, last_person_time := now }
      else if event = "person_left_view" then
        { bs with person_detected := false, person_left_time := now }
      else bs
    | _ => bs
  else if obs.sensor_type = "ultrasonic" then
    { bs with obstacle_distance :=
        match obs.value with | .number x => x | _ => 100 }
  else if obs.sensor_type = "touch" ∧ obs.value.truthy then
    { bs with touch_detected := true,
              touch_style := (match obs.value with | .text s => some s | _ => none),
              mood := bs.mood.touchBump }
  else bs

/-- Mean of a numeric history (`statistics.mean`). -/
noncomputable def sampleMean (h : List ℝ) : ℝ := h.sum / h.length

/-- Sample standard deviation (`statistics.stdev`): square root of the
variance with denominator n−1. -/
noncomputable def sampleStdev (h : List ℝ) : ℝ :=
  Real.sqrt ((h.map (fun x => (x - sampleMean h) ^ 2)).sum / ((h.length : ℝ) - 1))

/-- The σ used by `NoveltyDetector._numeric_novelty`: the sample stdev when the
history has more than one element, else 1.0, and 1.0 again when it is zero. -/
noncomputable def numericSigma (history : List ℝ) : ℝ :=
  let stdev := if history.length > 1 then sampleStdev history else 1
  if stdev = 0 then 1 else stdev

/-- `NoveltyDetector._numeric_novelty`: `min(1.0, z / 3.0)` with
`z = abs(value - mean) / stdev`. -/
noncomputable def numericNovelty (value : ℝ) (history : List ℝ) : ℝ :=
  if history = [] then 1
  else min 1 (|value - sampleMean history| / numericSigma history / 3)

/-- The `_history` entry of `NoveltyDetector` for one numeric sensor type
(`"ultrasonic"`): `none` when the key is absent from the `_history` dict. -/
structure NoveltyDetector where
  history_size : Nat := 100
  history : Option (List ℝ) := none

/-- `NoveltyDetector.add_observation` restricted to the numeric (ultrasonic)
sensor: the first observation of the sensor creates an empty history and
returns 1.0 without recording the sample (the early return in the source);
later observations are scored over the history as it stood, then appended with
FIFO truncation to `history_size`. -/
noncomputable def NoveltyDetector.addObservation (nd : NoveltyDetector)
    (value : ℝ) : ℝ × NoveltyDetector :=
  match nd.history with
  | none => (1, { nd with history := some [] })
  | some history =>
    let novelty := numericNovelty value history
    let history := history ++ [value]
    let history := if history.length > nd.history_size then history.tail else history
    (novelty, { nd with history := some history })

/-- The SQL `ORDER BY importance ASC, access_count ASC, last_accessed ASC` of
`get_prune_candidates`, as a total lexicographic comparison. -/
def pruneLE (a b : Memory) : Bool :=
  decide (a.importance < b.importance ∨ (a.importance = b.importance ∧
    (a.accessCount < b.accessCount ∨ (a.accessCount = b.accessCount ∧
      a.lastAccessed ≤ b.lastAccessed))))

/-- `MemoryManager.get_prune_candidates`: rows with importance ≤ the bound,
ordered low-importance, low-access, old first, truncated to `limit`. -/
def MemoryManager.get_prune_candidates (store : List Memory)
    (max_importance : ℚ) (limit : Nat) : List Memory :=
  ((store.filter (fun m => m.importance ≤ max_importance)).mergeSort pruneLE).take limit

/-- `MemoryMaintainer._prune_low_importance`.  Python computes
`int(excess * 1.2)` in floating point; for every feasible memory count this
equals `6 * excess / 5` in integer arithmetic, which is used here. -/
def MemoryMaintainer.prune_low_importance (store : List Memory)
    (max_memories : Nat) (min_importance : ℚ) : List Memory × Nat :=
  let memory_count := store.length
  if memory_count ≤ max_memories then (store, 0)
  else
    let excess := memory_count - max_memories
    let prune_count := 6 * excess / 5
    let candidates := MemoryManager.get_prune_candidates store min_importance prune_count
    if candidates = [] then (store, 0)
    else
      let ids_to_delete := candidates.map (fun m => m.id)
      (MemoryManager.bulk_delete_memories store ids_to_delete, ids_to_delete.length)

/-- `Personality` from `personality.py`: five bounded traits. -/
structure Personality where
  playfulness : ℚ := 7/10
  curiosity : ℚ := 8/10
  affection : ℚ := 6/10
  energy : ℚ := 1/2
  talkativeness : ℚ := 6/10
deriving Repr, DecidableEq

/-- A `(speech, actions)` pair produced by `TemplateLibrary.get_response`. -/
structure TemplateResponse where
  speech : String := ""
  actions : List String := []
deriving Repr, DecidableEq

/-- The template library is injected into `BehaviorEngine.__init__`; it is
modelled as the function `(category, mood_modifier, name substitution) ↦
response`, absorbing the library's internal random pick. -/
def TemplateLibrary := String → Option String → Option String → TemplateResponse

/-- A tool record emitted by the behavior engine; only the two shapes
`behavior_engine.py` constructs. -/
inductive ToolCall where
  | remember (category subject content : String)
  | complete_goal (goalId : Int)
deriving Repr, DecidableEq

/-- `Decision` from `behavior_engine.py`. -/
structure Decision where
  speech : String
  actions : List String
  tools : List ToolCall := []
deriving Repr, DecidableEq

/-- `ObservationContext` from `behavior_engine.py`. -/
structure ObservationContext where
  person_detected : Bool := false
  person_name : Option String := none
  person_is_new : Bool := false
  person_is_returning : Bool := false
  face_detected : Bool := false
  obstacle_detected : Bool := false
  obstacle_distance : ℚ := 100
  touch_detected : Bool := false
  touch_style : Option String := none
  has_active_goal : Bool := false
  active_goal_id : Option Int := none
  active_goal_description : Option String := none

/-- The mutable anti-repetition bookkeeping of `BehaviorEngine`. -/
structure EngineState where
  last_template_category : Option String := none
  last_decision_time : ℚ := 0
  recent_categories : List String := []
  greeting_cooldown : List (String × ℚ) := []

/-- One draw of `random.random()` from an ambient stream of values in [0,1). -/
def randFloat (rng : List ℚ) : ℚ × List ℚ := (rng.headD 0, rng.tail)

/-- `random.choice`, driven by one stream draw. -/
def randChoice {α : Type} (l : List α) (dflt : α) (rng : List ℚ) : α × List ℚ :=
  let (r, rng') := randFloat rng
  (l.getD (r * l.length).floor.toNat dflt, rng')

/-- Python dictionary assignment `d[k] = v` on an association list. -/
def dictInsert (l : List (String × ℚ)) (k : String) (v : ℚ) :
    List (String × ℚ) :=
  (k, v) :: l.filter (fun p => p.1 ≠ k)

/-- `BehaviorEngine._track_category`: append, keep the last 5. -/
def trackCategory (st : EngineState) (category : String) : EngineState :=
  let rc := st.recent_categories ++ [category]
  { st with last_template_category := some category,
            recent_categories := if rc.length > 5 then rc.tail else rc }

/-- The `name = obs.person_name or "unknown"` normalization of
`_handle_person`. -/
def effectiveName (obs : ObservationContext) : String :=
  match obs.person_name with
  | some n => if n = "" then "unknown" else n
  | none => "unknown"

/-- Python truthiness of `obs.person_name`. -/
def personNameTruthy (obs : ObservationContext) : Bool :=
  match obs.person_name with
  | some n => n ≠ ""
  | none => false

/-- The action-verb starters used to phrase a recalled memory
(`_handle_person`). -/
def actionStarters : List String :=
  ["like", "love", "enjoy", "prefer", "hate", "want", "need",
   "play", "gave", "taught", "showed", "told", "said"]

/-- `BehaviorEngine._handle_idle`: one roll selects an animated idle or idle
sounds; idle-sound speech is suppressed with probability 0.7. -/
def BehaviorEngine.handleIdle (lib : TemplateLibrary) (st : EngineState)
    (rng : List ℚ) (personality : Personality) :
    Decision × EngineState × List ℚ :=
  let (roll, rng) := randFloat rng
  let animation_threshold := 3/10 + personality.energy * (4/10)
  if roll < animation_threshold then
    let (category, rng) := randChoice ["happy_content", "curious_sniffing"]
      "happy_content" rng
    let response := lib category none none
    (⟨response.speech, response.actions, []⟩, trackCategory st category, rng)
  else
    let category := "idle_sounds"
    let response := lib category none none
    let st := trackCategory st category
    let (r2, rng) := randFloat rng
    let speech := if r2 < 7/10 then "" else response.speech
    (⟨speech, response.actions, []⟩, st, rng)

/-- The greeting arm of `BehaviorEngine._handle_person` (reached when the
per-name cooldown has elapsed): emit a greeting with a `remember` tool, stamp
the cooldown and track the category. -/
def BehaviorEngine.handleGreet (lib : TemplateLibrary) (st : EngineState)
    (now : ℚ) (rng : List ℚ) (mood : Mood)
    (obs : ObservationContext) (person_memories_ctx : List (String × List String)) :
    Decision × EngineState × List ℚ :=
  let name := effectiveName obs
  let mood_mod : Option String :=
      if mood.excitement > 7/10 ∨ mood.happiness > 7/10 then some "excited"
      else if mood.tiredness > 6/10 then some "tired"
      else none
    if personNameTruthy obs then
      let pn := obs.person_name.getD ""
      let category := if obs.person_is_returning then "greeting_returning_person"
        else "greeting_known_person"
      let response := lib category mood_mod (some pn)
      let tools := [ToolCall.remember "interaction" pn ("Greeted " ++ pn)]
      let person_memories := (person_memories_ctx.lookup pn).getD []
      let (speech, rng) :=
        if person_memories ≠ [] then
          let (r, rng) := randFloat rng
          if r < 3/10 then
            let (memory, rng) := randChoice person_memories "" rng
            let memory_lower := (strLower memory).trim
            if actionStarters.any (fun s => memory_lower.startsWith s) then
              (response.speech ++ " I remember you " ++ memory ++ "!", rng)
            else
              (response.speech ++ " I remember: " ++ memory, rng)
          else (response.speech, rng)
        else (response.speech, rng)
      let st := { st with greeting_cooldown := dictInsert st.greeting_cooldown name now }
      let st := trackCategory st category
      (⟨speech, response.actions, tools⟩, st, rng)
    else
      let category := "greeting_unknown_person"
      let response := lib category mood_mod none
      let tools := [ToolCall.remember "interaction" "unknown person"
        "Met an unknown person"]
      let st := { st with greeting_cooldown := dictInsert st.greeting_cooldown name now }
      let st := trackCategory st category
      (⟨response.speech, response.actions, tools⟩, st, rng)

/-- `BehaviorEngine._handle_person`: greeting with a 60 s per-name cooldown;
inside the cooldown a subtle acknowledgement (`happy_general`) when excitement
is high, else plain idle; past the cooldown, the greeting arm. -/
def BehaviorEngine.handlePerson (lib : TemplateLibrary) (st : EngineState)
    (now : ℚ) (rng : List ℚ) (mood : Mood) (personality : Personality)
    (obs : ObservationContext) (person_memories_ctx : List (String × List String)) :
    Decision × EngineState × List ℚ :=
  let name := effectiveName obs
  let last_greeted := (st.greeting_cooldown.lookup name).getD 0
  let cooldown_seconds : ℚ := 60
  if now - last_greeted < cooldown_seconds then
    if mood.excitement > 6/10 then
      let response := lib "happy_general" none none
      (⟨response.speech, response.actions, []⟩, st, rng)
    else
      BehaviorEngine.handleIdle lib st rng personality
  else
    BehaviorEngine.handleGreet lib st now rng mood obs person_memories_ctx

/-- `BehaviorEngine._handle_obstacle`. -/
def BehaviorEngine.handleObstacle (lib : TemplateLibrary) (st : EngineState)
    (rng : List ℚ) (obs : ObservationContext) :
    Decision × EngineState × List ℚ :=
  let category := if obs.obstacle_distance < 10 then "reaction_too_close"
    else "reaction_obstacle"
  let response := lib category none none
  let st := trackCategory st category
  let actions := if "backward" ∈ response.actions then response.actions
    else "backward" :: response.actions
  (⟨response.speech, actions, []⟩, st, rng)

/-- `BehaviorEngine._handle_touch`. -/
def BehaviorEngine.handleTouch (lib : TemplateLibrary) (st : EngineState)
    (rng : List ℚ) (obs : ObservationContext) :
    Decision × EngineState × List ℚ :=
  let liked : List String := ["FRONT_TO_REAR", "PRESS"]
  let disliked : List String := ["REAR_TO_FRONT"]
  let styleIn := fun (l : List String) => match obs.touch_style with
    | some s => decide (s ∈ l)
    | none => false
  if styleIn liked = true then
    let category := "affection_being_pet"
    let response := lib category none none
    (⟨response.speech, response.actions, []⟩, trackCategory st category, rng)
  else if styleIn disliked = true then
    let category := "response_bad_dog"
    let response := lib category none none
    (⟨response.speech, ["backward", "shake head"], []⟩, trackCategory st category, rng)
  else
    let category := "reaction_surprised"
    let response := lib category none none
    (⟨response.speech, response.actions, []⟩, trackCategory st category, rng)

/-- `BehaviorEngine._handle_goal`: goal category tracked, then a 10% chance of
completion (the draw happens only when a goal id is present). -/
def BehaviorEngine.handleGoal (lib : TemplateLibrary) (st : EngineState)
    (rng : List ℚ) (obs : ObservationContext) :
    Decision × EngineState × List ℚ :=
  let category := "goal_working_on"
  let response := lib category none none
  let st := trackCategory st category
  match obs.active_goal_id with
  | some gid =>
    let (r, rng) := randFloat rng
    if r < 1/10 then
      let response := lib "goal_completed" none none
      (⟨response.speech, response.actions, [ToolCall.complete_goal gid]⟩, st, rng)
    else
      (⟨response.speech, response.actions, []⟩, st, rng)
  | none => (⟨response.speech, response.actions, []⟩, st, rng)

/-- `BehaviorEngine._handle_mood`: boredom, curiosity, tiredness, happiness
selectors; `none` when no mood behaviour triggers. -/
def BehaviorEngine.handleMood (lib : TemplateLibrary) (st : EngineState)
    (rng : List ℚ) (mood : Mood) (personality : Personality) :
    Option (Decision × EngineState × List ℚ) :=
  if mood.boredom > 7/10 then
    let category := if personality.playfulness > 6/10 then "bored_playful"
      else if personality.energy > 1/2 then "bored_restless"
      else "bored_idle"
    let response := lib category none none
    some (⟨response.speech, response.actions, []⟩, trackCategory st category, rng)
  else if mood.curiosity_level > 6/10 then
    let (category, rng) := randChoice
      ["curious_investigating", "curious_sniffing", "exploring_start"]
      "curious_investigating" rng
    let response := lib category none none
    some (⟨response.speech, response.actions, []⟩, trackCategory st category, rng)
  else if mood.tiredness > 7/10 then
    let category := if mood.tiredness > 9/10 then "tired_going_to_sleep"
      else "tired_general"
    let response := lib category none none
    some (⟨response.speech, response.actions, []⟩, trackCategory st category, rng)
  else if mood.happiness > 6/10 ∧ mood.excitement > 1/2 then
    let category := if mood.excitement > 7/10 then "happy_excited"
      else "happy_general"
    let response := lib category none none
    some (⟨response.speech, response.actions, []⟩, trackCategory st category, rng)
  else none

/-- `BehaviorEngine._evaluate_tree`: person, obstacle, touch, goal, mood
selector, idle fallback — in that order. -/
def BehaviorEngine.evaluateTree (lib : TemplateLibrary) (st : EngineState)
    (now : ℚ) (rng : List ℚ) (mood : Mood) (personality : Personality)
    (obs : ObservationContext)
    (person_memories_ctx : List (String × List String)) :
    Decision × EngineState × List ℚ :=
  if obs.person_detected then
    BehaviorEngine.handlePerson lib st now rng mood personality obs person_memories_ctx
  else if obs.obstacle_detected ∧ obs.obstacle_distance < 15 then
    BehaviorEngine.handleObstacle lib st rng obs
  else if obs.touch_detected then
    BehaviorEngine.handleTouch lib st rng obs
  else if obs.has_active_goal ∧
      (match obs.active_goal_description with
       | some d => decide (d ≠ "")
       | none => false) = true then
    BehaviorEngine.handleGoal lib st rng obs
  else
    match BehaviorEngine.handleMood lib st rng mood personality with
    | some r => r
    | none => BehaviorEngine.handleIdle lib st rng personality

/-- `BehaviorEngine.decide`: evaluate the tree, then record the decision
time. -/
def BehaviorEngine.decide (lib : TemplateLibrary) (st : EngineState)
    (now : ℚ) (rng : List ℚ) (mood : Mood) (personality : Personality)
    (obs : ObservationContext)
    (person_memories_ctx : List (String × List String)) :
    Decision × EngineState × List ℚ :=
  let r := BehaviorEngine.evaluateTree lib st now rng mood personality obs
    person_memories_ctx
  (r.1, { r.2.1 with last_decision_time := now }, r.2.2)

/-- The three greeting template categories of the behavior engine. -/
def greetingCategories : List String :=
  ["greeting_known_person", "greeting_returning_person", "greeting_unknown_person"]

/-- The categories the idle fallback can use. -/
def idleCategories : List String :=
  ["happy_content", "curious_sniffing", "idle_sounds"]

/-- A single entry of the `updates` array in a consolidation reply; the `id`
key may be absent (`update.get("id")` yields None). -/
structure MemoryUpdate where
  updateId : Option Int := none
  content : Option String := none
  importance : Option ℚ := none

/-- The optional `merged` record of a consolidation reply. -/
structure MergedMemory where
  content : String := ""
  importance : Option ℚ := none
  source_ids : List Int := []

/-- A parsed consolidation reply from the reasoner
(`delete_ids` / `updates` / `merged`). -/
structure ConsolidationResult where
  delete_ids : List Int := []
  updates : List MemoryUpdate := []
  merged : Option MergedMemory := none

/-- One call to the memory store performed during consolidation. -/
inductive StoreOp where
  | bulkDelete (ids : List Int)
  | updateContent (memId : Int) (content : String)
  | updateImportance (memId : Int) (importance : ℚ)
  | insert (category subject content : String) (importance : ℚ)
deriving Repr, DecidableEq

/-- The set of existing ids a store call acts on (an insert touches none). -/
def StoreOp.touchesId : StoreOp → Int → Prop
  | .bulkDelete ids, i => i ∈ ids
  | .updateContent memId _, i => i = memId
  | .updateImportance memId _, i => i = memId
  | .insert _ _ _ _, _ => False

/-- Apply one store call to `(store, nextId)`; `nextId` plays SQLite's rowid
counter for inserts. -/
def applyOp : (List Memory × Int) → StoreOp → (List Memory × Int)
  | (store, nextId), .bulkDelete ids =>
      (MemoryManager.bulk_delete_memories store ids, nextId)
  | (store, nextId), .updateContent memId c =>
      (MemoryManager.update_memory_content store memId c, nextId)
  | (store, nextId), .updateImportance memId i =>
      (MemoryManager.update_memory_importance store memId i, nextId)
  | (store, nextId), .insert cat subj c i =>
      ((MemoryManager.remember store nextId cat subj c i).1, nextId + 1)

/-- Apply a sequence of store calls. -/
def applyOps (store : List Memory) (nextId : Int) (ops : List StoreOp) :
    List Memory :=
  (ops.foldl applyOp (store, nextId)).1

/-- `valid_ids` of `_consolidate_subject_memories`: the ids of the batch. -/
def validIds (memories : List Memory) : List Int := memories.map (fun m => m.id)

/-- `validated_delete_ids`: the returned `delete_ids` restricted to the batch. -/
def validatedDeleteIds (memories : List Memory) (result : ConsolidationResult) :
    List Int :=
  result.delete_ids.filter (fun i => i ∈ validIds memories)

/-- `validated_source_ids`: `merged.source_ids` restricted to the batch and to
ids not already deleted. -/
def validatedSourceIds (memories : List Memory) (result : ConsolidationResult)
    (mg : MergedMemory) : List Int :=
  mg.source_ids.filter
    (fun i => i ∈ validIds memories ∧ i ∉ validatedDeleteIds memories result)

/-- The store calls performed for one entry of `updates` (empty when the entry
is skipped because its id is invalid or already deleted). -/
def updateOpsFor (valid_ids deleted_ids : List Int) (u : MemoryUpdate) :
    List StoreOp :=
  match u.updateId with
  | none => []
  | some memId =>
    if memId ∈ valid_ids ∧ memId ∉ deleted_ids then
      (match u.content with
       | some c => [StoreOp.updateContent memId c]
       | none => []) ++
      (match u.importance with
       | some i => [StoreOp.updateImportance memId i]
       | none => [])
    else []

/-- Whether one entry of `updates` is applied (counts toward `affected`). -/
def updateApplies (valid_ids deleted_ids : List Int) (u : MemoryUpdate) : Bool :=
  match u.updateId with
  | none => false
  | some memId => decide (memId ∈ valid_ids ∧ memId ∉ deleted_ids)

/-- The store calls of the merge phase of `_consolidate_subject_memories`:
when a merged record with truthy content and source_ids is returned and at
least one source id survives validation, insert the merged memory with the
category of the first valid source memory, then bulk-delete the validated
source ids. -/
def mergeOps (memories : List Memory) (subject : String)
    (result : ConsolidationResult) : List StoreOp :=
  match result.merged with
  | none => []
  | some mg =>
    if mg.content = "" ∨ mg.source_ids = [] then []
    else if validatedSourceIds memories result mg = [] then []
    else
      match memories.find?
          (fun m => decide (m.id ∈ validatedSourceIds memories result mg)) with
      | none => []
      | some source_mem =>
        [StoreOp.insert source_mem.category subject mg.content
          (mg.importance.getD (1/2)),
         StoreOp.bulkDelete (validatedSourceIds memories result mg)]

/-- The number of memories the merge phase reports as affected. -/
def mergeCount (memories : List Memory) (result : ConsolidationResult) : Nat :=
  match result.merged with
  | none => 0
  | some mg =>
    if mg.content = "" ∨ mg.source_ids = [] then 0
    else if validatedSourceIds memories result mg = [] then 0
    else
      match memories.find?
          (fun m => decide (m.id ∈ validatedSourceIds memories result mg)) with
      | none => 0
      | some _ => (validatedSourceIds memories result mg).length

/-- `MemoryMaintainer._consolidate_subject_memories` as the sequence of store
calls it performs (deletions, then the update loop, then the merge) together
with the `affected` count. -/
def consolidateOps (memories : List Memory) (subject : String)
    (result : ConsolidationResult) : List StoreOp × Nat :=
  let valid_ids := validIds memories
  let validated_delete_ids := validatedDeleteIds memories result
  let deleteOps := if validated_delete_ids ≠ [] then
      [StoreOp.bulkDelete validated_delete_ids] else []
  let acc := result.updates.foldl
    (fun acc u =>
      (acc.1 ++ updateOpsFor valid_ids validated_delete_ids u,
       acc.2 + if updateApplies valid_ids validated_delete_ids u then 1 else 0))
    (deleteOps, validated_delete_ids.length)
  (acc.1 ++ mergeOps memories subject result,
   acc.2 + mergeCount memories result)

/-- `_consolidate_subject_memories` applied to a store: the resulting store and
the `affected` count. -/
def MemoryMaintainer.consolidate_subject_memories (store : List Memory)
    (nextId : Int) (subject : String) (memories : List Memory)
    (result : ConsolidationResult) : List Memory × Nat :=
  let r := consolidateOps memories subject result
  (applyOps store nextId r.1, r.2)

/-- Concrete batch for the consolidation scenario: subject "Joe", ids 10-12. -/
def mem10 : Memory :=
  { id := 10, category := "person", subject := "Joe",
    content := "Joe likes pizza", importance := 7/10 }

/-- Second batch memory of the consolidation scenario. -/
def mem11 : Memory :=
  { id := 11, category := "person", subject := "Joe",
    content := "Joe has a red hat", importance := 6/10 }

/-- Third batch memory of the consolidation scenario. -/
def mem12 : Memory :=
  { id := 12, category := "person", subject := "Joe",
    content := "Joe plays fetch", importance := 1/2 }

/-- A memory outside the batch (id 77, different subject). -/
def mem77 : Memory :=
  { id := 77, category := "fact", subject := "Weather",
    content := "sunny", importance := 3/10 }

/-- The consolidation scenario batch. -/
def consolidationWitnessBatch : List Memory := [mem10, mem11, mem12]

/-- The consolidation scenario store: the batch plus the outside memory. -/
def consolidationWitnessStore : List Memory := [mem10, mem11, mem12, mem77]

/-- The merged record of the scenario: source ids 12 (valid) and 77 (not in
the batch). -/
def consolidationWitnessMerged : MergedMemory :=
  { content := "Joe summary", source_ids := [12, 77] }

/-- The reasoner reply of the scenario: delete 10 and hallucinated 999, update
11, merge 12 with invalid 77. -/
def consolidationWitnessResult : ConsolidationResult :=
  { delete_ids := [10, 999],
    updates := [{ updateId := some 11, content := some "merged" }],
    merged := some consolidationWitnessMerged }

lemma maxFloor_bounds {a x : ℚ} (h0 : 0 ≤ a) (h1 : a ≤ 1) (hx : x ≤ 1) :
    0 ≤ max a x ∧ max a x ≤ 1 :=
  ⟨le_trans h0 (le_max_left a x), max_le h1 hx⟩

lemma minCap_bounds {x : ℚ} (hx : 0 ≤ x) :
    0 ≤ min 1 x ∧ min 1 x ≤ 1 :=
  ⟨le_min (by norm_num) hx, min_le_left 1 x⟩

lemma maxZero_bounds {x : ℚ} (hx : x ≤ 1) :
    0 ≤ max 0 x ∧ max 0 x ≤ 1 :=
  ⟨le_max_left 0 x, max_le (by norm_num) hx⟩

/-- **C5.** Every Mood field (happiness, excitement, tiredness, boredom,
curiosity_level) stays in [0,1] after every mood operation: `on_interaction`,
`on_novel_stimulus` for any novelty in [0,1], `decay` for any non-negative `dt`,
the touch-induced happiness bump, and the post-think updates of both backends. -/
theorem mood_ops_preserve_bounds (m : Mood) (hm : m.inBounds)
    (dt : ℚ) (hdt : 0 ≤ dt) (novelty : ℚ) (hn0 : 0 ≤ novelty) (hn1 : novelty ≤ 1) :
    (m.decay dt).inBounds ∧ m.onInteraction.inBounds ∧
    (m.onNovelStimulus novelty).inBounds ∧ m.touchBump.inBounds ∧
    m.postThinkRemote.inBounds ∧ m.postThinkLocal.inBounds := by
  obtain ⟨h1, h2, h3, h4, h5, h6, h7, h8, h9, h10⟩ := hm
  refine ⟨?_, ?_, ?_, ?_, ?_, ?_⟩ <;>
    simp only [Mood.decay, Mood.onInteraction, Mood.onNovelStimulus, Mood.touchBump,
      Mood.postThinkRemote, Mood.postThinkLocal, Mood.inBounds]
  · refine ⟨h1, h2, ?_, ?_, ?_, ?_, ?_, ?_, ?_, ?_⟩
    · exact (maxFloor_bounds (by norm_num) (by norm_num) (by linarith)).1
    · exact (maxFloor_bounds (by norm_num) (by norm_num) (by linarith)).2
    · exact (minCap_bounds (by nlinarith)).1
    · exact (minCap_bounds (by nlinarith)).2
    · exact (minCap_bounds (by nlinarith)).1
    · exact (minCap_bounds (by nlinarith)).2
    · exact (maxFloor_bounds (by norm_num) (by norm_num) (by linarith)).1
    · exact (maxFloor_bounds (by norm_num) (by norm_num) (by linarith)).2
  · refine ⟨(minCap_bounds (by linarith)).1, (minCap_bounds (by linarith)).2,
      (minCap_bounds (by linarith)).1, (minCap_bounds (by linarith)).2, h5, h6,
      (maxZero_bounds (by linarith)).1, (maxZero_bounds (by linarith)).2, h9, h10⟩
  · refine ⟨h1, h2, (minCap_bounds (by nlinarith)).1, (minCap_bounds (by nlinarith)).2,
      h5, h6, (maxZero_bounds (by nlinarith)).1, (maxZero_bounds (by nlinarith)).2,
      (minCap_bounds (by nlinarith)).1, (minCap_bounds (by nlinarith)).2⟩
  · exact ⟨(minCap_bounds (by linarith)).1, (minCap_bounds (by linarith)).2,
      h3, h4, h5, h6, h7, h8, h9, h10⟩
  · exact ⟨h1, h2, h3, h4, h5, h6, by norm_num, by norm_num, by norm_num, by norm_num⟩
  · refine ⟨h1, h2, h3, h4, h5, h6, ?_, ?_, ?_, ?_⟩
    · exact (maxZero_bounds (by linarith)).1
    · exact (maxZero_bounds (by linarith)).2
    · exact (maxFloor_bounds (by norm_num) (by norm_num) (by linarith)).1
    · exact (maxFloor_bounds (by norm_num) (by norm_num) (by linarith)).2

/-- Witness for C5 at the default mood, dt = 2, novelty = 1/2. -/
theorem mood_ops_preserve_bounds_witness :
    ({} : Mood).inBounds ∧ (0 : ℚ) ≤ 2 ∧ (0 : ℚ) ≤ 1/2 ∧ (1/2 : ℚ) ≤ 1 ∧
    (({} : Mood).decay 2).inBounds ∧ ({} : Mood).onInteraction.inBounds ∧
    (({} : Mood).onNovelStimulus (1/2)).inBounds ∧ ({} : Mood).touchBump.inBounds ∧
    ({} : Mood).postThinkRemote.inBounds ∧ ({} : Mood).postThinkLocal.inBounds := by
  have h := mood_ops_preserve_bounds {} (by norm_num [Mood.inBounds]) 2 (by norm_num)
    (1/2) (by norm_num) (by norm_num)
  exact ⟨by norm_num [Mood.inBounds], by norm_num, by norm_num, by norm_num,
    h.1, h.2.1, h.2.2.1, h.2.2.2.1, h.2.2.2.2.1, h.2.2.2.2.2⟩

lemma valid_actions_lower :
    MemoryManager.VALID_ACTIONS.map strLower = MemoryManager.VALID_ACTIONS := by decide

lemma learn_trick_succeeds (tricks : List Trick) (name trig : String)
    (actions : List String) (hl : actions.length ≤ 10)
    (hv : ∀ a ∈ actions, strLower a ∈ MemoryManager.VALID_ACTIONS) :
    MemoryManager.learn_trick tricks name trig actions =
      (insertOrReplaceTrick tricks
        { name := strLower name, trigger_phrase := strLower trig,
          actions := actions.map strLower },
       true, "Learned trick " ++ name) := by
  unfold MemoryManager.learn_trick
  rw [if_neg (by simp [MemoryManager.MAX_ACTIONS_PER_TRICK]; omega)]
  have hfil : actions.filter
      (fun a => decide (strLower a ∉ MemoryManager.VALID_ACTIONS.map strLower)) = [] := by
    rw [List.filter_eq_nil_iff]
    intro a ha
    simp [valid_actions_lower, hv a ha]
  simp only [hfil]
  rw [if_neg (by simp)]

lemma learn_trick_eq (tricks : List Trick) (name trig : String)
    (actions : List String) :
    MemoryManager.learn_trick tricks name trig actions =
      if actions.length > MemoryManager.MAX_ACTIONS_PER_TRICK then
        (tricks, false, "Too many actions (max 10)")
      else if actions.filter
          (fun a => decide (strLower a ∉ MemoryManager.VALID_ACTIONS.map strLower)) ≠ [] then
        (tricks, false, "Invalid actions: " ++ String.intercalate ", "
          (actions.filter
            (fun a => decide (strLower a ∉ MemoryManager.VALID_ACTIONS.map strLower))))
      else
        (insertOrReplaceTrick tricks
          { name := strLower name, trigger_phrase := strLower trig,
            actions := actions.map strLower },
         true, "Learned trick " ++ name) := rfl

lemma learn_trick_fails_same_store (tricks : List Trick) (name trig : String)
    (actions : List String) :
    (MemoryManager.learn_trick tricks name trig actions).2.1 = false →
    (MemoryManager.learn_trick tricks name trig actions).1 = tricks := by
  rw [learn_trick_eq]
  by_cases hl : actions.length > MemoryManager.MAX_ACTIONS_PER_TRICK
  · rw [if_pos hl]; intro; rfl
  · rw [if_neg hl]
    by_cases hf : actions.filter
        (fun a => decide (strLower a ∉ MemoryManager.VALID_ACTIONS.map strLower)) = []
    · rw [if_neg (not_not_intro hf)]
      intro h; exact absurd h (by simp)
    · rw [if_pos hf]
      intro; rfl

lemma learn_trick_success_iff (tricks : List Trick) (name trig : String)
    (actions : List String) :
    (MemoryManager.learn_trick tricks name trig actions).2.1 = true ↔
      actions.length ≤ 10 ∧
      ∀ a ∈ actions, strLower a ∈ MemoryManager.VALID_ACTIONS := by
  constructor
  · intro h
    rw [learn_trick_eq] at h
    by_cases hl : actions.length > MemoryManager.MAX_ACTIONS_PER_TRICK
    · rw [if_pos hl] at h; exact absurd h (by simp)
    · rw [if_neg hl] at h
      refine ⟨by simpa [MemoryManager.MAX_ACTIONS_PER_TRICK] using Nat.le_of_not_lt hl, ?_⟩
      by_cases hf : actions.filter
          (fun a => decide (strLower a ∉ MemoryManager.VALID_ACTIONS.map strLower)) = []
      · intro a ha
        have := List.filter_eq_nil_iff.mp hf a ha
        simpa [valid_actions_lower] using this
      · rw [if_pos hf] at h; exact absurd h (by simp)
  · rintro ⟨hl, hv⟩
    rw [learn_trick_succeeds tricks name trig actions hl hv]

lemma mem_insertOrReplaceTrick {tricks : List Trick} {t u : Trick}
    (h : u ∈ insertOrReplaceTrick tricks t) : u ∈ tricks ∨ u = t := by
  unfold insertOrReplaceTrick at h
  rcases List.mem_append.mp h with h | h
  · exact Or.inl (List.mem_of_mem_filter h)
  · exact Or.inr (by simpa using h)

/-- **C3 counterexample.** `learn_trick` accepts the action `"head down"`,
which is not in the spec-section-6 vocabulary: the claim that `learn_trick`
succeeds exactly for actions of that vocabulary is false. -/
theorem learn_trick_spec_vocab_cex :
    (MemoryManager.learn_trick [] "bow" "take a bow" ["head down"]).2.1 = true ∧
    "head down" ∉ specActionVocabulary :=
  ⟨rfl, by decide⟩

/-- **C3 (amended).** `learn_trick` succeeds exactly when the action list has
length at most 10 and every action, case-folded, belongs to the code's closed
vocabulary `MemoryManager.VALID_ACTIONS` (which differs from the spec-§6 list:
it lacks "doze off", "twist body", "waiting", "feet shake" and adds
"head down"); it fails with a structured rejection otherwise and writes
nothing; hence every trick ever written has at most 10 actions, all drawn from
`VALID_ACTIONS`, and inserting a trick with an action outside `VALID_ACTIONS`
fails. -/
theorem learn_trick_validates (tricks : List Trick) (name trig : String)
    (actions : List String) :
    ((MemoryManager.learn_trick tricks name trig actions).2.1 = true ↔
      actions.length ≤ 10 ∧
      ∀ a ∈ actions, strLower a ∈ MemoryManager.VALID_ACTIONS) ∧
    ((MemoryManager.learn_trick tricks name trig actions).2.1 = false →
      (MemoryManager.learn_trick tricks name trig actions).1 = tricks) ∧
    ((∀ t ∈ tricks, t.actions.length ≤ 10 ∧
        ∀ a ∈ t.actions, a ∈ MemoryManager.VALID_ACTIONS) →
      ∀ t ∈ (MemoryManager.learn_trick tricks name trig actions).1,
        t.actions.length ≤ 10 ∧ ∀ a ∈ t.actions, a ∈ MemoryManager.VALID_ACTIONS) := by
  refine ⟨learn_trick_success_iff tricks name trig actions,
    learn_trick_fails_same_store tricks name trig actions, ?_⟩
  intro hinv t ht
  by_cases hs : (MemoryManager.learn_trick tricks name trig actions).2.1 = true
  · obtain ⟨hl, hv⟩ := (learn_trick_success_iff tricks name trig actions).mp hs
    rw [learn_trick_succeeds tricks name trig actions hl hv] at ht
    rcases mem_insertOrReplaceTrick ht with h | h
    · exact hinv t h
    · subst h
      refine ⟨by simpa using hl, ?_⟩
      intro a ha
      obtain ⟨b, hb, rfl⟩ := List.mem_map.mp ha
      exact hv b hb
  · rw [learn_trick_fails_same_store tricks name trig actions
      (by simpa using hs)] at ht
    exact hinv t ht

/-- Witness for C3 (amended): a valid trick is accepted and a stored trick
obeys the invariant; an over-long list is refused. -/
theorem learn_trick_validates_witness :
    ((MemoryManager.learn_trick [] "spin" "do a spin" ["Turn Left", "bark"]).2.1 = true ↔
      (["Turn Left", "bark"] : List String).length ≤ 10 ∧
      ∀ a ∈ (["Turn Left", "bark"] : List String),
        strLower a ∈ MemoryManager.VALID_ACTIONS) ∧
    (∀ t ∈ (MemoryManager.learn_trick [] "spin" "do a spin" ["Turn Left", "bark"]).1,
      t.actions.length ≤ 10 ∧ ∀ a ∈ t.actions, a ∈ MemoryManager.VALID_ACTIONS) := by
  have h := learn_trick_validates [] "spin" "do a spin" ["Turn Left", "bark"]
  exact ⟨h.1, h.2.2 (by simp)⟩

lemma get_trick_insertOrReplace (tricks : List Trick) (t : Trick) (nm : String)
    (h : t.name = strLower nm) :
    MemoryManager.get_trick (insertOrReplaceTrick tricks t) nm = some t := by
  unfold MemoryManager.get_trick insertOrReplaceTrick
  rw [List.find?_append]
  have hnone : (tricks.filter (fun u => decide ¬u.name = t.name)).find?
      (fun u => decide (u.name = strLower nm)) = none := by
    rw [List.find?_eq_none]
    intro u hu
    have := List.of_mem_filter hu
    simp only [decide_eq_true_eq] at this ⊢
    rw [← h]; exact this
  rw [hnone]
  simp [h]

lemma count_one_insertOrReplace (tricks : List Trick) (t : Trick) (nm : String)
    (h : t.name = nm) :
    ((insertOrReplaceTrick tricks t).filter (fun u => u.name = nm)).length = 1 := by
  unfold insertOrReplaceTrick
  rw [List.filter_append, List.filter_filter]
  have h1 : (tricks.filter
      (fun u => decide (u.name = nm) && decide ¬u.name = t.name)) = [] := by
    rw [List.filter_eq_nil_iff]
    intro u _
    by_cases hu : u.name = nm <;> simp [hu, h]
  rw [h1]
  simp [h]

/-- **C10.** `learn_trick` with a name already used succeeds and silently
replaces the stored trick: after two valid `learn_trick` calls for the same
name, `get_trick` returns the single stored trick, whose trigger phrase is the
case-folded second trigger and whose actions are the case-folded second action
list. -/
theorem learn_trick_replaces (tricks : List Trick) (n t1 t2 : String)
    (a1 a2 : List String)
    (h1l : a1.length ≤ 10)
    (h1v : ∀ a ∈ a1, strLower a ∈ MemoryManager.VALID_ACTIONS)
    (h2l : a2.length ≤ 10)
    (h2v : ∀ a ∈ a2, strLower a ∈ MemoryManager.VALID_ACTIONS) :
    (MemoryManager.learn_trick tricks n t1 a1).2.1 = true ∧
    (MemoryManager.learn_trick (MemoryManager.learn_trick tricks n t1 a1).1 n t2 a2).2.1
      = true ∧
    MemoryManager.get_trick
        (MemoryManager.learn_trick (MemoryManager.learn_trick tricks n t1 a1).1 n t2 a2).1
        n =
      some { name := strLower n, trigger_phrase := strLower t2,
             actions := a2.map strLower } ∧
    ((MemoryManager.learn_trick (MemoryManager.learn_trick tricks n t1 a1).1 n t2 a2).1.filter
        (fun t => t.name = strLower n)).length = 1 := by
  rw [learn_trick_succeeds tricks n t1 a1 h1l h1v]
  rw [learn_trick_succeeds _ n t2 a2 h2l h2v]
  refine ⟨rfl, rfl, ?_, ?_⟩
  · exact get_trick_insertOrReplace _ _ n rfl
  · exact count_one_insertOrReplace _ _ _ rfl

/-- Witness for C10 at a concrete pair of learn calls for the name "spin". -/
theorem learn_trick_replaces_witness :
    ((["turn left"] : List String).length ≤ 10 ∧
      (∀ a ∈ (["turn left"] : List String), strLower a ∈ MemoryManager.VALID_ACTIONS)) ∧
    ((["Turn Right", "bark"] : List String).length ≤ 10 ∧
      (∀ a ∈ (["Turn Right", "bark"] : List String),
        strLower a ∈ MemoryManager.VALID_ACTIONS)) ∧
    MemoryManager.get_trick
        (MemoryManager.learn_trick
          (MemoryManager.learn_trick [] "Spin" "do a spin" ["turn left"]).1
          "Spin" "spin around" ["Turn Right", "bark"]).1 "Spin" =
      some { name := "spin", trigger_phrase := "spin around",
             actions := ["turn right", "bark"] } := by
  have h := learn_trick_replaces [] "Spin" "do a spin" "spin around"
    ["turn left"] ["Turn Right", "bark"] (by decide) (by decide) (by decide) (by decide)
  exact ⟨⟨by decide, by decide⟩, ⟨by decide, by decide⟩, h.2.2.1⟩

/-- **C2 counterexample.** Storing a memory with category `"mood"` (outside the
closed category set) is not refused: the dispatcher's remember tool reports
success and a record is inserted. -/
theorem tool_remember_invalid_category_cex :
    (ToolExecutor.toolRemember [] 1
      { category := some "mood", subject := some "Joe",
        content := some "likes pizza" }).2.success = true ∧
    (ToolExecutor.toolRemember [] 1
      { category := some "mood", subject := some "Joe",
        content := some "likes pizza" }).1.length = 1 :=
  ⟨rfl, rfl⟩

/-- **C2 (amended).** A store with a category outside the closed set is not
refused: `_tool_remember` silently coerces the category to `"fact"` and inserts
one record (whenever subject and content are non-empty), and the store-level
`MemoryManager.remember` performs no category validation at all — it inserts
with the given category and clamped importance. -/
theorem tool_remember_coerces_category (store : List Memory) (nextId : Int)
    (p : RememberParams) (hcat : p.category.getD "fact" ∉ validCategories)
    (hsub : p.subject.getD "" ≠ "") (hcon : p.content.getD "" ≠ "") :
    (ToolExecutor.toolRemember store nextId p).2.success = true ∧
    (ToolExecutor.toolRemember store nextId p).1 =
      store ++ [{ id := nextId, category := "fact", subject := p.subject.getD "",
                  content := p.content.getD "",
                  importance := clamp01 (p.importance.getD (1/2)) }] ∧
    ∀ c s t i, (MemoryManager.remember store nextId c s t i).1 =
      store ++ [{ id := nextId, category := c, subject := s, content := t,
                  importance := clamp01 i }] := by
  unfold ToolExecutor.toolRemember
  rw [if_neg (by simp [hsub, hcon])]
  rw [if_neg hcat]
  exact ⟨rfl, rfl, fun c s t i => rfl⟩

/-- Witness for C2 (amended) at category "mood", subject "Joe". -/
theorem tool_remember_coerces_category_witness :
    (({ category := some "mood", subject := some "Joe",
        content := some "likes pizza" } : RememberParams).category.getD "fact"
      ∉ validCategories) ∧
    (ToolExecutor.toolRemember [] 1
      { category := some "mood", subject := some "Joe",
        content := some "likes pizza" }).2.success = true := by
  have h := tool_remember_coerces_category [] 1
    { category := some "mood", subject := some "Joe", content := some "likes pizza" }
    (by decide) (by decide) (by decide)
  exact ⟨by decide, h.1⟩

/-- **C9 counterexample.** With no callbacks registered, `explore` yields the
message "Navigation not available", not "Vision not available" as the claim
states for all six tools. -/
theorem vision_tools_message_cex :
    (ToolExecutor.toolExplore (fun _ => none)).success = false ∧
    (ToolExecutor.toolExplore (fun _ => none)).message = "Navigation not available" ∧
    "Navigation not available" ≠ "Vision not available" :=
  ⟨rfl, rfl, by decide⟩

/-- **C9 (amended).** When no callback of the required name is registered, each
of the four vision tools (learn_face, learn_room, follow_person, find_person)
returns `ToolResult(success=false, message="Vision not available")`, while the
two navigation tools (go_to_room — once the room exists — and explore) return
`ToolResult(success=false, message="Navigation not available")`; none of them
raises. -/
theorem missing_callback_structured_result (env : VisionCallbacks)
    (rooms : List Room) (name roomName : String) :
    (env "learn_face" = none → name ≠ "" →
      ToolExecutor.toolLearnFace env name =
        { success := false, message := "Vision not available" }) ∧
    (env "learn_room" = none → roomName ≠ "" →
      ToolExecutor.toolLearnRoom env roomName =
        { success := false, message := "Vision not available" }) ∧
    (env "follow_person" = none →
      ToolExecutor.toolFollowPerson env =
        { success := false, message := "Vision not available" }) ∧
    (env "find_person" = none → name ≠ "" →
      ToolExecutor.toolFindPerson env name =
        { success := false, message := "Vision not available" }) ∧
    (env "go_to_room" = none → roomName ≠ "" →
      (MemoryManager.get_room rooms roomName).isSome = true →
      ToolExecutor.toolGoToRoom env rooms roomName =
        { success := false, message := "Navigation not available" }) ∧
    (env "explore" = none →
      ToolExecutor.toolExplore env =
        { success := false, message := "Navigation not available" }) := by
  refine ⟨?_, ?_, ?_, ?_, ?_, ?_⟩
  · intro h hn
    unfold ToolExecutor.toolLearnFace
    rw [if_neg hn, h]
  · intro h hn
    unfold ToolExecutor.toolLearnRoom
    rw [if_neg hn, h]
  · intro h
    unfold ToolExecutor.toolFollowPerson
    rw [h]
  · intro h hn
    unfold ToolExecutor.toolFindPerson
    rw [if_neg hn, h]
  · intro h hn hr
    obtain ⟨r, hr⟩ := Option.isSome_iff_exists.mp hr
    unfold ToolExecutor.toolGoToRoom
    rw [if_neg hn, hr, h]
  · intro h
    unfold ToolExecutor.toolExplore
    rw [h]

/-- Witness for C9 (amended) with the empty callback table, name "Joe" and a
stored room "kitchen". -/
theorem missing_callback_structured_result_witness :
    ((fun _ => none : VisionCallbacks) "learn_face" = none) ∧
    ("Joe" : String) ≠ "" ∧
    (MemoryManager.get_room [{ name := "kitchen" }] "Kitchen").isSome = true ∧
    ToolExecutor.toolLearnFace (fun _ => none) "Joe" =
      { success := false, message := "Vision not available" } ∧
    ToolExecutor.toolGoToRoom (fun _ => none) [{ name := "kitchen" }] "Kitchen" =
      { success := false, message := "Navigation not available" } ∧
    ToolExecutor.toolExplore (fun _ => none) =
      { success := false, message := "Navigation not available" } := by
  have h := missing_callback_structured_result (fun _ => none)
    [{ name := "kitchen" }] "Joe" "Kitchen"
  exact ⟨rfl, by decide, by decide,
    h.1 rfl (by decide),
    h.2.2.2.2.1 rfl (by decide) (by decide),
    h.2.2.2.2.2 rfl⟩

/-- **C4 counterexample.** In state IDLE, a vision observation with event
`unknown_face_detected` leaves the state machine in IDLE: the claimed
transition to CURIOUS does not happen for this event. -/
theorem idle_unknown_face_stays_idle_cex :
    (AutonomousBrain.handleObservation {}
      { sensor_type := "vision",
        value := .visionEvent "unknown_face_detected" none } 0).state
      = AutonomousState.IDLE ∧
    AutonomousState.IDLE ≠ AutonomousState.CURIOUS := by
  refine ⟨?_, by decide⟩
  norm_num [AutonomousBrain.handleObservation]
  rw [if_neg (by decide), if_neg (by decide)]

/-- **C4 (amended).** From IDLE, a vision observation transitions the state
machine to CURIOUS on `person_entered_view`, and on `face_recognized` when the
name payload is non-empty; `unknown_face_detected` (and `face_recognized` with
a missing name) update the person-latch fields but leave the state at IDLE. -/
theorem idle_vision_transitions (bs : BrainState) (hidle : bs.state = .IDLE)
    (nm : Option String) (s : String) (ν t : ℚ) :
    (AutonomousBrain.handleObservation bs
        { sensor_type := "vision", value := .visionEvent "person_entered_view" nm,
          novelty := ν } t).state = .CURIOUS ∧
    (s ≠ "" → (AutonomousBrain.handleObservation bs
        { sensor_type := "vision", value := .visionEvent "face_recognized" (some s),
          novelty := ν } t).state = .CURIOUS) ∧
    (AutonomousBrain.handleObservation bs
        { sensor_type := "vision", value := .visionEvent "unknown_face_detected" nm,
          novelty := ν } t).state = .IDLE ∧
    (AutonomousBrain.handleObservation bs
        { sensor_type := "vision", value := .visionEvent "face_recognized" none,
          novelty := ν } t).state = .IDLE := by
  refine ⟨?_, fun hs => ?_, ?_, ?_⟩
  · simp [AutonomousBrain.handleObservation, apply_ite BrainState.state, hidle]
  · simp [AutonomousBrain.handleObservation, apply_ite BrainState.state, hidle, hs]
  · simp [AutonomousBrain.handleObservation, apply_ite BrainState.state, hidle]
  · simp [AutonomousBrain.handleObservation, apply_ite BrainState.state, hidle]

/-- Witness for C4 (amended) at the default IDLE state with name "Joe". -/
theorem idle_vision_transitions_witness :
    ({} : BrainState).state = .IDLE ∧ ("Joe" : String) ≠ "" ∧
    (AutonomousBrain.handleObservation {}
        { sensor_type := "vision", value := .visionEvent "face_recognized" (some "Joe"),
          novelty := 0 } 0).state = .CURIOUS := by
  have h := idle_vision_transitions {} rfl none "Joe" 0 0
  exact ⟨rfl, by decide, h.2.1 (by decide)⟩

/-- **C6 counterexample.** The first ultrasonic observation of a fresh detector
scores 1 but is NOT appended to the history: afterwards the history is empty,
not `[5]` as the claim ("the sample is appended afterwards") requires. -/
theorem novelty_first_sample_not_recorded_cex :
    (NoveltyDetector.addObservation {} 5).1 = 1 ∧
    (NoveltyDetector.addObservation {} 5).2.history = some [] ∧
    (NoveltyDetector.addObservation {} 5).2.history ≠ some [5] := by
  refine ⟨rfl, rfl, ?_⟩
  rw [show (NoveltyDetector.addObservation {} 5).2.history = some ([] : List ℝ) from rfl]
  simp

/-- **C6 (amended).** For ultrasonic observations: the first observation of the
sensor scores exactly 1 and creates an empty history without recording the
sample; every later observation is scored over the history as it stood before
the sample is appended, and the sample is appended afterwards (with FIFO
truncation); for a non-empty history the score is min(1, |x−μ|/(3σ)) with σ
the sample standard deviation treated as 1 when it is zero (or when the
history has a single element); after any history of n ≥ 1 identical samples an
observation equal to the mean scores 0. -/
theorem novelty_score_amended (nd : NoveltyDetector) (x : ℝ) (h : List ℝ) :
    (nd.history = none →
      nd.addObservation x = (1, { nd with history := some [] })) ∧
    (nd.history = some h →
      (nd.addObservation x).1 = numericNovelty x h ∧
      (nd.addObservation x).2 = { nd with
        history := some (if (h ++ [x]).length > nd.history_size
          then (h ++ [x]).tail else h ++ [x]) }) ∧
    (h ≠ [] → numericNovelty x h =
      min 1 (|x - sampleMean h| / (3 * numericSigma h))) ∧
    (∀ (c : ℝ) (n : ℕ), 1 ≤ n → numericNovelty c (List.replicate n c) = 0) := by
  obtain ⟨hs, hist⟩ := nd
  refine ⟨?_, ?_, ?_, ?_⟩
  · intro hnone
    simp only at hnone
    subst hnone
    rfl
  · intro hsome
    simp only at hsome
    subst hsome
    exact ⟨rfl, rfl⟩
  · intro hne
    unfold numericNovelty
    rw [if_neg hne, div_div, mul_comm (numericSigma h) 3]
  · intro c n hn
    have hne : List.replicate n c ≠ [] := by
      intro hc
      have := congrArg List.length hc
      simp at this
      omega
    unfold numericNovelty
    rw [if_neg hne]
    have hmean : sampleMean (List.replicate n c) = c := by
      unfold sampleMean
      rw [List.sum_replicate, List.length_replicate, nsmul_eq_mul]
      have hn0 : (n : ℝ) ≠ 0 := Nat.cast_ne_zero.mpr (by omega)
      rw [mul_comm, mul_div_assoc, div_self hn0, mul_one]
    rw [hmean]
    simp

/-- Witness for C6 (amended): a fresh detector scores 1 and records nothing; a
two-sample history is scored before the third is appended; ten identical
samples followed by the mean score 0. -/
theorem novelty_score_amended_witness :
    (({} : NoveltyDetector).history = none) ∧
    NoveltyDetector.addObservation {} 5 =
      (1, { history := some [] }) ∧
    (({ history := some [2, 4] } : NoveltyDetector).history = some [2, 4]) ∧
    (NoveltyDetector.addObservation { history := some [2, 4] } 5).1 =
      numericNovelty 5 [2, 4] ∧
    (1 ≤ 10) ∧
    numericNovelty 7 (List.replicate 10 7) = 0 := by
  refine ⟨rfl, (novelty_score_amended {} 5 []).1 rfl, rfl, ?_, by norm_num, ?_⟩
  · exact ((novelty_score_amended { history := some [2, 4] } 5 [2, 4]).2.1 rfl).1
  · exact (novelty_score_amended {} 0 []).2.2.2 7 10 (by norm_num)

lemma subperm_map {α β : Type} (f : α → β) {l₁ l₂ : List α} (h : l₁.Subperm l₂) :
    (l₁.map f).Subperm (l₂.map f) := by
  obtain ⟨l, hperm, hsub⟩ := h
  exact ⟨l.map f, hperm.map f, hsub.map f⟩

lemma subperm_nodup {α : Type} {l₁ l₂ : List α} (h : l₁.Subperm l₂)
    (hnd : l₂.Nodup) : l₁.Nodup := by
  obtain ⟨l, hperm, hsub⟩ := h
  exact hperm.nodup (hsub.nodup hnd)

lemma filter_not_mem_length (l ids : List Int) (hl : l.Nodup)
    (hsub : ids.Subperm l) :
    (l.filter (fun i => i ∉ ids)).length = l.length - ids.length := by
  have hidsnd : ids.Nodup := subperm_nodup hsub hl
  have hperm : (l.filter (fun i => i ∈ ids)).Perm ids := by
    apply List.Subperm.antisymm
    · apply List.Nodup.subperm (hl.filter _)
      intro x hx
      simpa using (List.mem_filter.mp hx).2
    · apply List.Nodup.subperm hidsnd
      intro x hx
      exact List.mem_filter.mpr ⟨hsub.subset hx, by simpa using hx⟩
  have h1 : (l.filter (fun i => i ∈ ids)).length = ids.length := hperm.length_eq
  have h2 := List.length_eq_length_filter_add (l := l) (fun i => decide (i ∈ ids))
  have h3 : (l.filter (fun i => i ∉ ids)) = l.filter (fun i => !decide (i ∈ ids)) := by
    simp only [decide_not]
  rw [h3]
  omega

lemma prune_eq (store : List Memory) (max_memories : Nat) (min_importance : ℚ) :
    MemoryMaintainer.prune_low_importance store max_memories min_importance =
      if store.length ≤ max_memories then (store, 0)
      else if MemoryManager.get_prune_candidates store min_importance
          (6 * (store.length - max_memories) / 5) = [] then (store, 0)
      else
        (MemoryManager.bulk_delete_memories store
          ((MemoryManager.get_prune_candidates store min_importance
            (6 * (store.length - max_memories) / 5)).map (fun m => m.id)),
         ((MemoryManager.get_prune_candidates store min_importance
            (6 * (store.length - max_memories) / 5)).map (fun m => m.id)).length) := rfl

lemma get_prune_candidates_subperm (store : List Memory) (mi : ℚ) (limit : Nat) :
    (MemoryManager.get_prune_candidates store mi limit).Subperm store := by
  unfold MemoryManager.get_prune_candidates
  refine (List.take_sublist _ _).subperm.trans ?_
  exact ((List.mergeSort_perm _ _).subperm).trans (List.filter_sublist store).subperm

/-- **C8.** In the pruning phase: if the memory count is at most
`max_memories` nothing is deleted; otherwise (when enough rows of importance at
most 0.2 exist) exactly `⌊excess·1.2⌋` memories are deleted, drawn from
`get_prune_candidates(max_importance=0.2)` — ordered importance asc,
access_count asc, last_accessed asc — leaving `count − ⌊excess·1.2⌋` rows: with
600 memories all of importance ≤ 0.2 and `max_memories = 500`, exactly 120 are
pruned leaving 480. -/
theorem prune_low_importance_correct (store : List Memory) (max_memories : Nat)
    (hnd : (store.map (fun m => m.id)).Nodup) :
    (store.length ≤ max_memories →
      MemoryMaintainer.prune_low_importance store max_memories (1/5) = (store, 0)) ∧
    (max_memories < store.length →
      6 * (store.length - max_memories) / 5 ≤
        (store.filter (fun m => m.importance ≤ 1/5)).length →
      (MemoryMaintainer.prune_low_importance store max_memories (1/5)).2 =
        6 * (store.length - max_memories) / 5 ∧
      (MemoryMaintainer.prune_low_importance store max_memories (1/5)).1.length =
        store.length - 6 * (store.length - max_memories) / 5) := by
  constructor
  · intro hle
    rw [prune_eq, if_pos hle]
  · intro hgt hcnt
    have hnotle : ¬ store.length ≤ max_memories := by omega
    have hclen : (MemoryManager.get_prune_candidates store (1/5)
        (6 * (store.length - max_memories) / 5)).length =
        6 * (store.length - max_memories) / 5 := by
      unfold MemoryManager.get_prune_candidates
      rw [List.length_take, List.length_mergeSort]
      omega
    have hpcpos : 0 < 6 * (store.length - max_memories) / 5 := by
      have := (Nat.le_div_iff_mul_le (k := 5) (by norm_num)).mpr
        (by omega : 1 * 5 ≤ 6 * (store.length - max_memories))
      omega
    have hcne : MemoryManager.get_prune_candidates store (1/5)
        (6 * (store.length - max_memories) / 5) ≠ [] := by
      intro hc
      rw [hc] at hclen
      simp at hclen
      omega
    rw [prune_eq, if_neg hnotle, if_neg hcne]
    refine ⟨?_, ?_⟩
    · show ((MemoryManager.get_prune_candidates store (1/5)
          (6 * (store.length - max_memories) / 5)).map (fun m => m.id)).length = _
      rw [List.length_map, hclen]
    · show (MemoryManager.bulk_delete_memories store
          ((MemoryManager.get_prune_candidates store (1/5)
            (6 * (store.length - max_memories) / 5)).map (fun m => m.id))).length = _
      have hsub : ((MemoryManager.get_prune_candidates store (1/5)
          (6 * (store.length - max_memories) / 5)).map (fun m => m.id)).Subperm
          (store.map (fun m => m.id)) :=
        subperm_map _ (get_prune_candidates_subperm store (1/5) _)
      have hfl := filter_not_mem_length (store.map (fun m => m.id)) _ hnd hsub
      have hmapfil : (store.map (fun m => m.id)).filter
          (fun i => i ∉ ((MemoryManager.get_prune_candidates store (1/5)
            (6 * (store.length - max_memories) / 5)).map (fun m => m.id))) =
          (MemoryManager.bulk_delete_memories store
            ((MemoryManager.get_prune_candidates store (1/5)
              (6 * (store.length - max_memories) / 5)).map (fun m => m.id))).map
            (fun m => m.id) := by
        unfold MemoryManager.bulk_delete_memories
        rw [List.filter_map]
        rfl
      have hlen1 : ((MemoryManager.bulk_delete_memories store
          ((MemoryManager.get_prune_candidates store (1/5)
            (6 * (store.length - max_memories) / 5)).map (fun m => m.id))).map
            (fun m => m.id)).length =
          (store.map (fun m => m.id)).length -
          ((MemoryManager.get_prune_candidates store (1/5)
            (6 * (store.length - max_memories) / 5)).map (fun m => m.id)).length := by
        rw [← hmapfil]
        exact hfl
      rw [List.length_map, List.length_map, List.length_map, hclen] at hlen1
      exact hlen1

/-- Witness for C8 at the spec's concrete scenario: 600 memories of importance
0.1, `max_memories = 500` — exactly 120 pruned, 480 remain. -/
theorem prune_low_importance_correct_witness :
    ((((List.range 600).map (fun (i : Nat) =>
        ({ id := (i : Int), importance := 1/10 } : Memory))).map
          (fun m => m.id)).Nodup) ∧
    (500 < ((List.range 600).map (fun (i : Nat) =>
        ({ id := (i : Int), importance := 1/10 } : Memory))).length) ∧
    (MemoryMaintainer.prune_low_importance
      ((List.range 600).map (fun (i : Nat) =>
        ({ id := (i : Int), importance := 1/10 } : Memory))) 500 (1/5)).2 = 120 ∧
    (MemoryMaintainer.prune_low_importance
      ((List.range 600).map (fun (i : Nat) =>
        ({ id := (i : Int), importance := 1/10 } : Memory))) 500 (1/5)).1.length
      = 480 := by
  have hnd : (((List.range 600).map (fun (i : Nat) =>
      ({ id := (i : Int), importance := 1/10 } : Memory))).map
        (fun m => m.id)).Nodup := by
    rw [List.map_map]
    exact (List.nodup_range 600).map (fun a b hab => by
      simpa using hab)
  have hlen : ((List.range 600).map (fun (i : Nat) =>
      ({ id := (i : Int), importance := 1/10 } : Memory))).length = 600 := by
    rw [List.length_map, List.length_range]
  have hfil : ((List.range 600).map (fun (i : Nat) =>
      ({ id := (i : Int), importance := 1/10 } : Memory))).filter
        (fun m => m.importance ≤ 1/5) =
      (List.range 600).map (fun (i : Nat) =>
        ({ id := (i : Int), importance := 1/10 } : Memory)) := by
    rw [List.filter_eq_self]
    intro m hm
    obtain ⟨i, _, rfl⟩ := List.mem_map.mp hm
    norm_num
  have h := (prune_low_importance_correct
    ((List.range 600).map (fun (i : Nat) =>
      ({ id := (i : Int), importance := 1/10 } : Memory))) 500 hnd).2
    (by omega) (by rw [hfil]; omega)
  refine ⟨hnd, by omega, ?_, ?_⟩
  · rw [h.1, hlen]
  · rw [h.2, hlen]

lemma randChoice_mem {α : Type} (l : List α) (d : α) (rng : List ℚ) :
    (randChoice l d rng).1 ∈ l ∨ (randChoice l d rng).1 = d := by
  unfold randChoice randFloat
  simp only [List.getD_eq_getElem?_getD]
  rcases hh : l[((rng.headD 0) * l.length).floor.toNat]? with _ | a
  · right; simp [hh]
  · left
    obtain ⟨hlt, he⟩ := List.getElem?_eq_some.mp hh
    simp only [hh, Option.getD_some]
    exact he ▸ List.getElem_mem hlt

lemma trackCategory_mem {st : EngineState} {c x : String}
    (hx : x ∈ (trackCategory st c).recent_categories) :
    x ∈ st.recent_categories ∨ x = c := by
  have h : (trackCategory st c).recent_categories =
      if (st.recent_categories ++ [c]).length > 5
      then (st.recent_categories ++ [c]).tail
      else st.recent_categories ++ [c] := rfl
  rw [h] at hx
  have hx' : x ∈ st.recent_categories ++ [c] := by
    split at hx
    · exact (List.tail_sublist _).subset hx
    · exact hx
  simpa using hx'

lemma handleIdle_eq (lib : TemplateLibrary) (st : EngineState) (rng : List ℚ)
    (pers : Personality) :
    BehaviorEngine.handleIdle lib st rng pers =
      if rng.headD 0 < 3/10 + pers.energy * (4/10) then
        (⟨(lib (randChoice ["happy_content", "curious_sniffing"] "happy_content"
            rng.tail).1 none none).speech,
          (lib (randChoice ["happy_content", "curious_sniffing"] "happy_content"
            rng.tail).1 none none).actions, []⟩,
         trackCategory st (randChoice ["happy_content", "curious_sniffing"]
            "happy_content" rng.tail).1,
         (randChoice ["happy_content", "curious_sniffing"] "happy_content"
            rng.tail).2)
      else
        (⟨if rng.tail.headD 0 < 7/10 then "" else (lib "idle_sounds" none none).speech,
          (lib "idle_sounds" none none).actions, []⟩,
         trackCategory st "idle_sounds", rng.tail.tail) := rfl

lemma handleIdle_spec (lib : TemplateLibrary) (st : EngineState) (rng : List ℚ)
    (pers : Personality) :
    (BehaviorEngine.handleIdle lib st rng pers).1.tools = [] ∧
    (BehaviorEngine.handleIdle lib st rng pers).2.1.greeting_cooldown =
      st.greeting_cooldown ∧
    ∀ x ∈ (BehaviorEngine.handleIdle lib st rng pers).2.1.recent_categories,
      x ∈ st.recent_categories ∨ x ∈ idleCategories := by
  rw [handleIdle_eq]
  by_cases hroll : rng.headD 0 < 3/10 + pers.energy * (4/10)
  · rw [if_pos hroll]
    refine ⟨rfl, rfl, ?_⟩
    intro x hx
    rcases trackCategory_mem hx with h | h
    · exact Or.inl h
    · right
      rw [h]
      rcases randChoice_mem ["happy_content", "curious_sniffing"] "happy_content"
        rng.tail with hm | hm
      · have hm' : (randChoice ["happy_content", "curious_sniffing"] "happy_content"
            rng.tail).1 = "happy_content" ∨
            (randChoice ["happy_content", "curious_sniffing"] "happy_content"
            rng.tail).1 = "curious_sniffing" := by simpa using hm
        rcases hm' with hm' | hm' <;> simp [hm', idleCategories]
      · simp [hm, idleCategories]
  · rw [if_neg hroll]
    refine ⟨rfl, rfl, ?_⟩
    intro x hx
    rcases trackCategory_mem hx with h | h
    · exact Or.inl h
    · rw [h]; right; simp [idleCategories]

lemma lookup_dictInsert (l : List (String × ℚ)) (k : String) (v : ℚ) :
    (dictInsert l k v).lookup k = some v := by
  simp [dictInsert, List.lookup_cons]

lemma handleGreet_stamps (lib : TemplateLibrary) (st : EngineState) (now : ℚ)
    (rng : List ℚ) (mood : Mood) (obs : ObservationContext)
    (memCtx : List (String × List String)) :
    ((BehaviorEngine.handleGreet lib st now rng mood obs
      memCtx).2.1.greeting_cooldown).lookup (effectiveName obs) = some now := by
  unfold BehaviorEngine.handleGreet
  by_cases ht : personNameTruthy obs = true
  · simp only [if_pos ht]
    exact lookup_dictInsert st.greeting_cooldown (effectiveName obs) now
  · simp only [if_neg ht]
    exact lookup_dictInsert st.greeting_cooldown (effectiveName obs) now

lemma handlePerson_eq (lib : TemplateLibrary) (st : EngineState) (now : ℚ)
    (rng : List ℚ) (mood : Mood) (personality : Personality)
    (obs : ObservationContext) (memCtx : List (String × List String)) :
    BehaviorEngine.handlePerson lib st now rng mood personality obs memCtx =
      if now - ((st.greeting_cooldown.lookup (effectiveName obs)).getD 0) < 60 then
        if mood.excitement > 6/10 then
          (⟨(lib "happy_general" none none).speech,
            (lib "happy_general" none none).actions, []⟩, st, rng)
        else BehaviorEngine.handleIdle lib st rng personality
      else BehaviorEngine.handleGreet lib st now rng mood obs memCtx := rfl

/-- **C7.** If the behavior tree greets a person, the greeting stamps that
name's cooldown with the current time (second conjunct); any person-detected
decision for the same name within 60 seconds falls back to a mild
acknowledgement or idle: it emits no tool (in particular no `remember`),
leaves the cooldown map unchanged, and uses no greeting category — the only
categories it can add are `happy_general`-acknowledgement or idle ones, which
are disjoint from the greeting categories. -/
theorem greeting_cooldown_prevents_regreet (lib : TemplateLibrary)
    (st : EngineState) (now t0 : ℚ) (rng : List ℚ) (mood : Mood)
    (personality : Personality) (obs : ObservationContext)
    (memCtx : List (String × List String))
    (hperson : obs.person_detected = true)
    (hcd : st.greeting_cooldown.lookup (effectiveName obs) = some t0)
    (hwithin : now - t0 < 60) :
    ((BehaviorEngine.decide lib st now rng mood personality obs memCtx).1.tools
        = [] ∧
     (BehaviorEngine.decide lib st now rng mood personality obs
        memCtx).2.1.greeting_cooldown = st.greeting_cooldown ∧
     (∀ x ∈ (BehaviorEngine.decide lib st now rng mood personality obs
         memCtx).2.1.recent_categories,
       x ∈ st.recent_categories ∨ x ∈ "happy_general" :: idleCategories) ∧
     ∀ g ∈ greetingCategories, g ∉ "happy_general" :: idleCategories) ∧
    (∀ (st' : EngineState) (rng' : List ℚ),
      ¬ (now - ((st'.greeting_cooldown.lookup (effectiveName obs)).getD 0) < 60) →
      ((BehaviorEngine.decide lib st' now rng' mood personality obs
        memCtx).2.1.greeting_cooldown).lookup (effectiveName obs) = some now) := by
  have hwithin' : now - ((st.greeting_cooldown.lookup (effectiveName obs)).getD 0)
      < 60 := by
    rw [hcd]
    simpa using hwithin
  constructor
  · refine ⟨?_, ?_, ?_, by decide⟩
    · show (BehaviorEngine.evaluateTree lib st now rng mood personality obs
        memCtx).1.tools = []
      simp only [BehaviorEngine.evaluateTree, hperson, if_true, handlePerson_eq,
        if_pos hwithin']
      by_cases hexc : mood.excitement > 6/10
      · rw [if_pos hexc]
      · rw [if_neg hexc]
        exact (handleIdle_spec lib st rng personality).1
    · show (BehaviorEngine.evaluateTree lib st now rng mood personality obs
        memCtx).2.1.greeting_cooldown = st.greeting_cooldown
      simp only [BehaviorEngine.evaluateTree, hperson, if_true, handlePerson_eq,
        if_pos hwithin']
      by_cases hexc : mood.excitement > 6/10
      · rw [if_pos hexc]
      · rw [if_neg hexc]
        exact (handleIdle_spec lib st rng personality).2.1
    · intro x hx
      have hx' : x ∈ (BehaviorEngine.evaluateTree lib st now rng mood personality obs
          memCtx).2.1.recent_categories := hx
      simp only [BehaviorEngine.evaluateTree, hperson, if_true, handlePerson_eq,
        if_pos hwithin'] at hx'
      by_cases hexc : mood.excitement > 6/10
      · rw [if_pos hexc] at hx'
        exact Or.inl hx'
      · rw [if_neg hexc] at hx'
        rcases (handleIdle_spec lib st rng personality).2.2 x hx' with h | h
        · exact Or.inl h
        · exact Or.inr (by simp [h])
  · intro st' rng' hnot
    show ((BehaviorEngine.evaluateTree lib st' now rng' mood personality obs
        memCtx).2.1.greeting_cooldown).lookup (effectiveName obs) = some now
    simp only [BehaviorEngine.evaluateTree, hperson, if_true, handlePerson_eq,
      if_neg hnot]
    exact handleGreet_stamps lib st' now rng' mood obs memCtx

/-- Witness for C7: Joe greeted at time 70, re-detected at time 100 (within
the 60 s cooldown) with low excitement — the decision carries no tools; and a
fresh engine state greeting at time 100 stamps the cooldown. -/
theorem greeting_cooldown_prevents_regreet_witness :
    ({ person_detected := true, person_name := some "Joe" } :
        ObservationContext).person_detected = true ∧
    (({ greeting_cooldown := [("Joe", 70)] } : EngineState).greeting_cooldown.lookup
      (effectiveName { person_detected := true, person_name := some "Joe" }))
      = some 70 ∧
    ((100 : ℚ) - 70 < 60) ∧
    (BehaviorEngine.decide (fun _ _ _ => {})
      { greeting_cooldown := [("Joe", 70)] } 100 [] {} {}
      { person_detected := true, person_name := some "Joe" } []).1.tools = [] ∧
    ¬ ((100 : ℚ) - ((({} : EngineState).greeting_cooldown.lookup
        (effectiveName { person_detected := true, person_name := some "Joe" })).getD 0)
      < 60) ∧
    ((BehaviorEngine.decide (fun _ _ _ => {}) {} 100 [] {} {}
      { person_detected := true, person_name := some "Joe" }
      []).2.1.greeting_cooldown).lookup
      (effectiveName { person_detected := true, person_name := some "Joe" })
      = some 100 := by
  have hlookup : (({ greeting_cooldown := [("Joe", 70)] } :
      EngineState).greeting_cooldown.lookup
      (effectiveName { person_detected := true, person_name := some "Joe" }))
      = some 70 := by
    simp [effectiveName, List.lookup_cons]
  have hempty : ¬ ((100 : ℚ) - ((({} : EngineState).greeting_cooldown.lookup
      (effectiveName { person_detected := true, person_name := some "Joe" })).getD 0)
      < 60) := by
    simp [List.lookup]
    norm_num
  have h := greeting_cooldown_prevents_regreet (fun _ _ _ => {})
    { greeting_cooldown := [("Joe", 70)] } 100 70 [] {} {}
    { person_detected := true, person_name := some "Joe" } [] rfl hlookup
    (by norm_num)
  exact ⟨rfl, hlookup, by norm_num, h.1.1, hempty, h.2 {} [] hempty⟩

lemma foldl_update_ops (valid deleted : List Int) (us : List MemoryUpdate)
    (ops0 : List StoreOp) (n0 : Nat) :
    us.foldl (fun acc u => (acc.1 ++ updateOpsFor valid deleted u,
      acc.2 + if updateApplies valid deleted u then 1 else 0)) (ops0, n0) =
    (ops0 ++ us.flatMap (updateOpsFor valid deleted),
     n0 + us.countP (updateApplies valid deleted)) := by
  induction us generalizing ops0 n0 with
  | nil => simp
  | cons u us ih =>
    rw [List.foldl_cons, ih, List.flatMap_cons, List.countP_cons]
    simp only [Prod.mk.injEq]
    constructor
    · rw [List.append_assoc]
    · by_cases h : updateApplies valid deleted u = true <;> simp [h] <;> omega

lemma consolidateOps_ops_eq (memories : List Memory) (subject : String)
    (result : ConsolidationResult) :
    (consolidateOps memories subject result).1 =
      (if validatedDeleteIds memories result ≠ [] then
        [StoreOp.bulkDelete (validatedDeleteIds memories result)] else []) ++
      result.updates.flatMap
        (updateOpsFor (validIds memories) (validatedDeleteIds memories result)) ++
      mergeOps memories subject result := by
  have h := foldl_update_ops (validIds memories) (validatedDeleteIds memories result)
    result.updates
    (if validatedDeleteIds memories result ≠ [] then
      [StoreOp.bulkDelete (validatedDeleteIds memories result)] else [])
    (validatedDeleteIds memories result).length
  simp only [consolidateOps]
  rw [h]

lemma applyOps_preserves (valid : List Int) (ops : List StoreOp)
    (hops : ∀ op ∈ ops, ∀ i : Int, StoreOp.touchesId op i → i ∈ valid) :
    ∀ (store : List Memory) (nextId : Int) (m : Memory), m ∈ store →
      m.id ∉ valid → m ∈ applyOps store nextId ops := by
  induction ops with
  | nil =>
    intro store nextId m hm _
    simpa [applyOps] using hm
  | cons op ops ih =>
    intro store nextId m hm hmid
    have hop : ∀ i, StoreOp.touchesId op i → i ∈ valid := hops op (by simp)
    have hops' : ∀ op' ∈ ops, ∀ i : Int, StoreOp.touchesId op' i → i ∈ valid :=
      fun op' h' => hops op' (List.mem_cons_of_mem _ h')
    cases op with
    | bulkDelete ids =>
      have hstep : applyOps store nextId (StoreOp.bulkDelete ids :: ops) =
          applyOps (MemoryManager.bulk_delete_memories store ids) nextId ops := rfl
      rw [hstep]
      refine ih hops' _ nextId m ?_ hmid
      refine List.mem_filter.mpr ⟨hm, ?_⟩
      simp only [decide_eq_true_eq]
      intro hin
      exact hmid (hop m.id hin)
    | updateContent memId c =>
      have hstep : applyOps store nextId (StoreOp.updateContent memId c :: ops) =
          applyOps (MemoryManager.update_memory_content store memId c) nextId ops := rfl
      rw [hstep]
      refine ih hops' _ nextId m ?_ hmid
      have hne : m.id ≠ memId := by
        intro he
        apply hmid
        rw [he]
        exact hop memId rfl
      have hfix : (if m.id = memId then { m with content := c } else m) = m :=
        if_neg hne
      exact hfix ▸ List.mem_map_of_mem _ hm
    | updateImportance memId q =>
      have hstep : applyOps store nextId (StoreOp.updateImportance memId q :: ops) =
          applyOps (MemoryManager.update_memory_importance store memId q) nextId ops := rfl
      rw [hstep]
      refine ih hops' _ nextId m ?_ hmid
      have hne : m.id ≠ memId := by
        intro he
        apply hmid
        rw [he]
        exact hop memId rfl
      have hfix : (if m.id = memId then { m with importance := clamp01 q } else m) = m :=
        if_neg hne
      exact hfix ▸ List.mem_map_of_mem _ hm
    | insert cat subj c q =>
      have hstep : applyOps store nextId (StoreOp.insert cat subj c q :: ops) =
          applyOps (MemoryManager.remember store nextId cat subj c q).1
            (nextId + 1) ops := rfl
      rw [hstep]
      exact ih hops' _ (nextId + 1) m (List.mem_append_left _ hm) hmid

lemma consolidateOps_touch_valid (memories : List Memory) (subject : String)
    (result : ConsolidationResult) :
    ∀ op ∈ (consolidateOps memories subject result).1, ∀ i : Int,
      StoreOp.touchesId op i → i ∈ validIds memories := by
  intro op hop i htouch
  rw [consolidateOps_ops_eq] at hop
  rcases List.mem_append.mp hop with hop' | hmerge
  · rcases List.mem_append.mp hop' with hdel | hupd
    · by_cases hne : validatedDeleteIds memories result ≠ []
      · rw [if_pos hne] at hdel
        simp only [List.mem_singleton] at hdel
        subst hdel
        have : i ∈ validatedDeleteIds memories result := htouch
        simpa using (List.mem_filter.mp this).2
      · rw [if_neg hne] at hdel
        cases hdel
    · obtain ⟨u, _, hopu⟩ := List.mem_flatMap.mp hupd
      rcases hid : u.updateId with _ | memId
      · simp only [updateOpsFor, hid] at hopu
        cases hopu
      · simp only [updateOpsFor, hid] at hopu
        by_cases hcond : memId ∈ validIds memories ∧
            memId ∉ validatedDeleteIds memories result
        · rw [if_pos hcond] at hopu
          have hi : i = memId := by
            rcases List.mem_append.mp hopu with h | h
            · rcases hc : u.content with _ | c
              · rw [hc] at h; cases h
              · rw [hc] at h
                simp only [List.mem_singleton] at h
                subst h
                exact htouch
            · rcases hq : u.importance with _ | q
              · rw [hq] at h; cases h
              · rw [hq] at h
                simp only [List.mem_singleton] at h
                subst h
                exact htouch
          rw [hi]
          exact hcond.1
        · rw [if_neg hcond] at hopu; cases hopu
  · rcases hm : result.merged with _ | mg
    · simp only [mergeOps, hm] at hmerge
      cases hmerge
    · simp only [mergeOps, hm] at hmerge
      by_cases h1 : mg.content = "" ∨ mg.source_ids = []
      · rw [if_pos h1] at hmerge; cases hmerge
      · rw [if_neg h1] at hmerge
        by_cases h2 : validatedSourceIds memories result mg = []
        · rw [if_pos h2] at hmerge; cases hmerge
        · rw [if_neg h2] at hmerge
          rcases hf : memories.find?
              (fun m => decide (m.id ∈ validatedSourceIds memories result mg))
            with _ | sm
          · simp only [hf] at hmerge
            cases hmerge
          · simp only [hf] at hmerge
            rcases List.mem_cons.mp hmerge with hmerge | hmerge
            · subst hmerge; cases htouch
            · simp only [List.mem_singleton] at hmerge
              subst hmerge
              have : i ∈ validatedSourceIds memories result mg := htouch
              have := (List.mem_filter.mp this).2
              simp only [decide_eq_true_eq] at this
              exact this.1

lemma consolidateOps_update_not_deleted (memories : List Memory)
    (subject : String) (result : ConsolidationResult) :
    ∀ op ∈ (consolidateOps memories subject result).1, ∀ i : Int,
      ((∃ c, op = StoreOp.updateContent i c) ∨
       (∃ q, op = StoreOp.updateImportance i q)) →
      i ∉ result.delete_ids := by
  intro op hop i hshape hdelmem
  rw [consolidateOps_ops_eq] at hop
  rcases List.mem_append.mp hop with hop' | hmerge
  · rcases List.mem_append.mp hop' with hdel | hupd
    · by_cases hne : validatedDeleteIds memories result ≠ []
      · rw [if_pos hne] at hdel
        simp only [List.mem_singleton] at hdel
        rcases hshape with ⟨c, hc⟩ | ⟨q, hq⟩ <;> subst hdel <;> simp_all
      · rw [if_neg hne] at hdel; cases hdel
    · obtain ⟨u, _, hopu⟩ := List.mem_flatMap.mp hupd
      rcases hid : u.updateId with _ | memId
      · simp only [updateOpsFor, hid] at hopu
        cases hopu
      · simp only [updateOpsFor, hid] at hopu
        by_cases hcond : memId ∈ validIds memories ∧
            memId ∉ validatedDeleteIds memories result
        · rw [if_pos hcond] at hopu
          have hi : i = memId := by
            rcases List.mem_append.mp hopu with h | h
            · rcases hc : u.content with _ | c
              · rw [hc] at h; cases h
              · rw [hc] at h
                simp only [List.mem_singleton] at h
                rcases hshape with ⟨c', hc'⟩ | ⟨q', hq'⟩ <;> subst h <;>
                  simp_all [StoreOp.updateContent.injEq]
            · rcases hq : u.importance with _ | q
              · rw [hq] at h; cases h
              · rw [hq] at h
                simp only [List.mem_singleton] at h
                rcases hshape with ⟨c', hc'⟩ | ⟨q', hq'⟩ <;> subst h <;>
                  simp_all [StoreOp.updateImportance.injEq]
          subst hi
          exact hcond.2 (List.mem_filter.mpr ⟨hdelmem, by simpa using hcond.1⟩)
        · rw [if_neg hcond] at hopu; cases hopu
  · rcases hm : result.merged with _ | mg
    · simp only [mergeOps, hm] at hmerge
      cases hmerge
    · simp only [mergeOps, hm] at hmerge
      by_cases h1 : mg.content = "" ∨ mg.source_ids = []
      · rw [if_pos h1] at hmerge; cases hmerge
      · rw [if_neg h1] at hmerge
        by_cases h2 : validatedSourceIds memories result mg = []
        · rw [if_pos h2] at hmerge; cases hmerge
        · rw [if_neg h2] at hmerge
          rcases hf : memories.find?
              (fun m => decide (m.id ∈ validatedSourceIds memories result mg))
            with _ | sm
          · simp only [hf] at hmerge
            cases hmerge
          · simp only [hf] at hmerge
            rcases List.mem_cons.mp hmerge with hmerge | hmerge
            · rcases hshape with ⟨c, hc⟩ | ⟨q, hq⟩ <;> subst hmerge <;> simp_all
            · simp only [List.mem_singleton] at hmerge
              rcases hshape with ⟨c, hc⟩ | ⟨q, hq⟩ <;> subst hmerge <;> simp_all

lemma consolidateOps_merge_suffix (memories : List Memory) (subject : String)
    (result : ConsolidationResult) (mg : MergedMemory) (sm : Memory)
    (hm : result.merged = some mg) (hc : mg.content ≠ "")
    (hf : memories.find?
      (fun m => decide (m.id ∈ validatedSourceIds memories result mg)) = some sm) :
    ∃ pre, (consolidateOps memories subject result).1 =
      pre ++ [StoreOp.insert sm.category subject mg.content
          (mg.importance.getD (1/2)),
        StoreOp.bulkDelete (validatedSourceIds memories result mg)] := by
  have hvs : validatedSourceIds memories result mg ≠ [] := by
    have hp := List.find?_some hf
    simp only [decide_eq_true_eq] at hp
    exact List.ne_nil_of_mem hp
  have hsrc : mg.source_ids ≠ [] := by
    intro h0
    apply hvs
    unfold validatedSourceIds
    rw [h0]
    rfl
  refine ⟨(if validatedDeleteIds memories result ≠ [] then
      [StoreOp.bulkDelete (validatedDeleteIds memories result)] else []) ++
    result.updates.flatMap
      (updateOpsFor (validIds memories) (validatedDeleteIds memories result)), ?_⟩
  rw [consolidateOps_ops_eq]
  congr 1
  simp only [mergeOps, hm]
  rw [if_neg (by push_neg; exact ⟨hc, hsrc⟩), if_neg hvs, hf]

/-- **C1.** During a consolidation cycle for one subject's batch: every id the
reasoner returns outside the batch's valid-id set is dropped — no store call
(deletion or update) ever touches an id outside the batch; every update whose
id was listed in `delete_ids` is dropped; when a merged record with content and
source ids is returned (with at least one valid source), a new memory is
inserted with the category of the first valid source memory and exactly the
validated source ids are bulk-deleted; every memory outside the batch is left
untouched; and the whole step is a total function — no error is raised. -/
theorem consolidation_validates_ids (store : List Memory) (nextId : Int)
    (subject : String) (memories : List Memory) (result : ConsolidationResult) :
    (∀ op ∈ (consolidateOps memories subject result).1, ∀ i : Int,
      StoreOp.touchesId op i → i ∈ validIds memories) ∧
    (∀ op ∈ (consolidateOps memories subject result).1, ∀ i : Int,
      ((∃ c, op = StoreOp.updateContent i c) ∨
       (∃ q, op = StoreOp.updateImportance i q)) →
      i ∉ result.delete_ids) ∧
    (∀ mg sm, result.merged = some mg → mg.content ≠ "" →
      memories.find?
        (fun m => decide (m.id ∈ validatedSourceIds memories result mg)) = some sm →
      ∃ pre, (consolidateOps memories subject result).1 =
        pre ++ [StoreOp.insert sm.category subject mg.content
            (mg.importance.getD (1/2)),
          StoreOp.bulkDelete (validatedSourceIds memories result mg)]) ∧
    (∀ m ∈ store, m.id ∉ validIds memories →
      m ∈ (MemoryMaintainer.consolidate_subject_memories store nextId subject
        memories result).1) := by
  refine ⟨consolidateOps_touch_valid memories subject result,
    consolidateOps_update_not_deleted memories subject result,
    fun mg sm hm hc hf =>
      consolidateOps_merge_suffix memories subject result mg sm hm hc hf,
    ?_⟩
  intro m hm hmid
  exact applyOps_preserves (validIds memories) _
    (consolidateOps_touch_valid memories subject result) store nextId m hm hmid

/-- Witness for C1 at the spec's scenario: batch ids {10,11,12} for "Joe";
reply deletes [10, 999], updates 11, merges [12, 77].  The outside memory 77
survives, and the merge inserts with memory 12's category then deletes [12]. -/
theorem consolidation_validates_ids_witness :
    mem77 ∈ consolidationWitnessStore ∧
    mem77.id ∉ validIds consolidationWitnessBatch ∧
    consolidationWitnessResult.merged = some consolidationWitnessMerged ∧
    consolidationWitnessMerged.content ≠ "" ∧
    consolidationWitnessBatch.find?
      (fun m => decide (m.id ∈ validatedSourceIds consolidationWitnessBatch
        consolidationWitnessResult consolidationWitnessMerged)) = some mem12 ∧
    mem77 ∈ (MemoryMaintainer.consolidate_subject_memories consolidationWitnessStore
      1000 "Joe" consolidationWitnessBatch consolidationWitnessResult).1 ∧
    ∃ pre, (consolidateOps consolidationWitnessBatch "Joe"
        consolidationWitnessResult).1 =
      pre ++ [StoreOp.insert mem12.category "Joe" consolidationWitnessMerged.content
          (consolidationWitnessMerged.importance.getD (1/2)),
        StoreOp.bulkDelete (validatedSourceIds consolidationWitnessBatch
          consolidationWitnessResult consolidationWitnessMerged)] := by
  have h := consolidation_validates_ids consolidationWitnessStore 1000 "Joe"
    consolidationWitnessBatch consolidationWitnessResult
  refine ⟨by simp [consolidationWitnessStore], by decide, rfl, by decide, rfl,
    ?_, ?_⟩
  · exact h.2.2.2 mem77 (by simp [consolidationWitnessStore]) (by decide)
  · exact h.2.2.1 consolidationWitnessMerged mem12 rfl (by decide) rfl

end Pidog
